import Mathlib

/-!
# PXA27x/3xx overlay video driver: `libvo/vo_pxa.c`

A shallow embedding of the driver's entry points (`vo_pxa_check_format`, `preinit`, `config`,
`control`, `draw_slice`, `uninit`) and the properties of the overlay surface lifecycle and of
the slice copy.

Modelling conventions.

* The module-level variables of the driver are the fields of `State`; every entry point takes
  the state and returns the new one.
* C `int` values are integers; the result of every `int` operation is reduced to the 32-bit
  two's complement range by `wrap32` (signed overflow, undefined in C, wraps as it does on the
  target), `uint32_t` arithmetic is reduced modulo `2^32` by `u32`, and a byte count passed as
  `size_t` goes through `size_t`.  Integer division of C is `Int.tdiv`.
* Addresses are integers, `NULL` is `0` and `MAP_FAILED` is `(void *) -1`.  Memory is a total
  map from addresses to bytes; the decoder's source planes are read-only maps from the offset
  relative to `src[k]`, disjoint from the destination.
* What the operating system returns to the calls of one `preinit` or `config` is a parameter
  (`ProbeEnv`, `Env`); the system calls and the error diagnostics made are returned as a list of
  `Event`s in program order.  Verbose-level trace messages are not recorded.
* Constants that come from headers outside this file are the fields of `Consts`.
-/

namespace VoPxa

/-! ## Machine arithmetic -/

/-- Value stored in a C `int` (32 bits, two's complement). -/
def wrap32 (z : Int) : Int := (z + 2147483648) % 4294967296 - 2147483648

/-- Conversion to `uint32_t` / `unsigned int`. -/
def u32 (z : Int) : Int := z % 4294967296

/-- Conversion of an `int` byte count to `size_t` on the 32-bit target. -/
def size_t (z : Int) : Nat := (z % 4294967296).toNat

/-- Result of `mmap` on failure: `(void *) -1`. -/
def MAP_FAILED : Int := -1

/-! ## Data model -/

/-- Header constants used by the driver (`img_format.h`, `vfcap.h`, `video_out.h`). -/
structure Consts where
  IMGFMT_YV12 : Int
  IMGFMT_IYUV : Int
  IMGFMT_I420 : Int
  VFCAP_CSP_SUPPORTED : Nat
  VFCAP_CSP_SUPPORTED_BY_HW : Nat
  VFCAP_ACCEPT_STRIDE : Nat
  VOCTRL_QUERY_FORMAT : Int
  VO_NOTIMPL : Int
  deriving DecidableEq, Repr

/-- The values these constants have in the player's headers. -/
def playerConsts : Consts where
  IMGFMT_YV12 := 0x32315659
  IMGFMT_IYUV := 0x56555949
  IMGFMT_I420 := 0x30323449
  VFCAP_CSP_SUPPORTED := 0x1
  VFCAP_CSP_SUPPORTED_BY_HW := 0x2
  VFCAP_ACCEPT_STRIDE := 0x400
  VOCTRL_QUERY_FORMAT := 2
  VO_NOTIMPL := -3

/-- VO driver state: the static variables of the file. -/
structure State where
  overlay_width : Int
  overlay_height : Int
  overlay_x : Int
  overlay_y : Int
  overlay_fd : Int
  overlay_mem : Int
  overlay_mem_size : Nat
  y_plane : Int
  u_plane : Int
  v_plane : Int
  deriving DecidableEq, Repr

/-- The state at program start: zero-initialised statics, `overlay_fd = -1`. -/
def State.init : State where
  overlay_width := 0
  overlay_height := 0
  overlay_x := 0
  overlay_y := 0
  overlay_fd := -1
  overlay_mem := 0
  overlay_mem_size := 0
  y_plane := 0
  u_plane := 0
  v_plane := 0

/-- Memory: the byte stored at each address. -/
abbrev Mem := Int → Nat

/-- The two framebuffer device nodes. -/
inductive Dev
  | fb0
  | fb2
  deriving DecidableEq, Repr

/-- Error-level diagnostics printed through `mp_msg`. -/
inductive Diag
  | format_not_supported (format : Int)
  | src_too_big
  | dst_too_big
  | src_ne_dst
  | get_vscreeninfo_failed
  | put_vscreeninfo_failed
  | get_fscreeninfo_failed
  | mmap_failed
  | too_big_image
  deriving DecidableEq, Repr

/-- The fields of `fb_var_screeninfo` that `config` rewrites before `FBIOPUT_VSCREENINFO`. -/
structure VarInfo where
  xres : Int
  yres : Int
  xres_virtual : Int
  yres_virtual : Int
  bits_per_pixel : Int
  activate : Int
  nonstd : Int
  deriving DecidableEq, Repr

/-- System calls and diagnostics, as they happen. -/
inductive Event
  | msg (d : Diag)
  | sys_open (dev : Dev) (fd : Int)
  | get_vscreeninfo (fd : Int) (r : Int)
  | put_vscreeninfo (fd : Int) (v : VarInfo) (r : Int)
  | get_fscreeninfo (fd : Int) (r : Int)
  | sys_mmap (len : Nat) (fd : Int) (addr : Int)
  | sys_munmap (addr : Int) (len : Nat)
  | sys_close (fd : Int)
  deriving DecidableEq, Repr

/-- What the system answers during one call of `preinit`. -/
structure ProbeEnv where
  fb : Int
  r : Int
  xres : Int
  yres : Int
  deriving DecidableEq, Repr

/-- What the system answers during one call of `config`. -/
structure Env where
  fd : Int
  r_get_vscreeninfo : Int
  r_put_vscreeninfo : Int
  r_get_fscreeninfo : Int
  smem_len : Nat
  mmap_result : Int
  deriving DecidableEq, Repr

/-- Outcome of an entry point that touches memory. -/
structure Result where
  ret : Int
  st : State
  mem : Mem
  log : List Event

/-! ## `vo_pxa_check_format`, `control` -/

/-- The switch over the three planar YUV formats; any other format is reported and gives 0. -/
def vo_pxa_check_format (K : Consts) (format : Int) : Int × List Event :=
  if format = K.IMGFMT_YV12 ∨ format = K.IMGFMT_IYUV ∨ format = K.IMGFMT_I420 then
    (((K.VFCAP_CSP_SUPPORTED ||| K.VFCAP_CSP_SUPPORTED_BY_HW ||| K.VFCAP_ACCEPT_STRIDE : Nat) : Int),
      [])
  else
    (0, [Event.msg (Diag.format_not_supported format)])

/-- The driver's `control`; `data` is the `uint32_t` that the data pointer points to. -/
def control (K : Consts) (s : State) (request : Int) (data : Int) : Int × State × List Event :=
  if request = K.VOCTRL_QUERY_FORMAT then
    ((vo_pxa_check_format K data).1, s, (vo_pxa_check_format K data).2)
  else
    (K.VO_NOTIMPL, s, [])

/-! ## `preinit` -/

/-- Probe of the main plane: records the native resolution of `/dev/fb0`. -/
def preinit (p : ProbeEnv) (s : State) : Int × State × List Event :=
  if p.r ≠ 0 then
    (-1, s, [Event.sys_open Dev.fb0 p.fb, Event.get_vscreeninfo p.fb p.r])
  else
    (0, { s with overlay_width := wrap32 p.xres, overlay_height := wrap32 p.yres },
      [Event.sys_open Dev.fb0 p.fb, Event.get_vscreeninfo p.fb p.r, Event.sys_close p.fb])

/-! ## `uninit` -/

/-- Release of the mapping and of the overlay device. -/
def uninit (s : State) : State × List Event :=
  ({ s with overlay_mem := 0, overlay_fd := -1 },
    (if s.overlay_mem ≠ 0 then [Event.sys_munmap s.overlay_mem s.overlay_mem_size] else []) ++
    (if s.overlay_fd ≠ -1 then [Event.sys_close s.overlay_fd] else []))

/-! ## `config` -/

/-- `memset(dst, c, n)`. -/
def memset (m : Mem) (dst : Int) (c : Int) (n : Nat) : Mem :=
  fun a => if dst ≤ a ∧ a < dst + n then (c % 256).toNat else m a

/-- The `error:` label of `config`; `pre` is what was logged before the jump. -/
def config_error (s : State) (m : Mem) (pre : List Event) : Result where
  ret := -1
  st := { s with overlay_mem := 0, overlay_fd := -1 }
  mem := m
  log := pre ++
    (if s.overlay_mem ≠ 0 then [Event.sys_munmap s.overlay_mem s.overlay_mem_size] else []) ++
    (if s.overlay_fd ≠ -1 then [Event.sys_close s.overlay_fd] else [])

/-- The descriptor submitted with `FBIOPUT_VSCREENINFO`. -/
def overlay_var (s : State) : VarInfo where
  xres := u32 s.overlay_width
  yres := u32 s.overlay_height
  xres_virtual := u32 s.overlay_width
  yres_virtual := u32 s.overlay_height
  bits_per_pixel := 16
  activate := 0
  nonstd := 4194304

/-- Tail of `config` after a successful `mmap`: plane pointers and black fill. -/
def config_fill (s : State) (m : Mem) (log : List Event) : Result :=
  let y_plane := s.overlay_mem
  let u_plane := y_plane + wrap32 (s.overlay_width * s.overlay_height)
  let v_plane := u_plane + Int.tdiv (wrap32 (s.overlay_width * s.overlay_height)) 4
  let m1 := memset m y_plane 16 (size_t (wrap32 (s.overlay_width * s.overlay_height)))
  let m2 := memset m1 u_plane 128
    (size_t (Int.tdiv (wrap32 (s.overlay_width * s.overlay_height)) 4))
  let m3 := memset m2 v_plane 128
    (size_t (Int.tdiv (wrap32 (s.overlay_width * s.overlay_height)) 4))
  { ret := 0
    st := { s with y_plane := y_plane, u_plane := u_plane, v_plane := v_plane }
    mem := m3
    log := log }

/-- Part of `config` from `open("/dev/fb2")` on. -/
def config_open (env : Env) (s : State) (m : Mem) : Result :=
  let s1 := { s with overlay_fd := env.fd }
  let l1 := [Event.sys_open Dev.fb2 env.fd, Event.get_vscreeninfo env.fd env.r_get_vscreeninfo]
  if env.r_get_vscreeninfo ≠ 0 then
    config_error s1 m (l1 ++ [Event.msg Diag.get_vscreeninfo_failed])
  else
    let l2 := l1 ++ [Event.put_vscreeninfo env.fd (overlay_var s1) env.r_put_vscreeninfo]
    if env.r_put_vscreeninfo ≠ 0 then
      config_error s1 m (l2 ++ [Event.msg Diag.put_vscreeninfo_failed])
    else
      let l3 := l2 ++ [Event.get_fscreeninfo env.fd env.r_get_fscreeninfo]
      if env.r_get_fscreeninfo ≠ 0 then
        config_error s1 m (l3 ++ [Event.msg Diag.get_fscreeninfo_failed])
      else
        let s2 := { s1 with overlay_mem_size := env.smem_len, overlay_mem := env.mmap_result }
        let l4 := l3 ++ [Event.sys_mmap env.smem_len env.fd env.mmap_result]
        if env.mmap_result = MAP_FAILED then
          config_error s2 m (l4 ++ [Event.msg Diag.mmap_failed])
        else
          config_fill s2 m l4

/-- Config the display driver.  The arguments are `uint32_t`; `title` is never read. -/
def config (K : Consts) (env : Env) (s : State) (m : Mem)
    (src_width src_height dst_width dst_height _flags format : Int) : Result :=
  if (vo_pxa_check_format K format).1 = 0 then
    config_error s m (vo_pxa_check_format K format).2
  else if src_width > u32 s.overlay_width ∨ src_height > u32 s.overlay_height then
    config_error s m [Event.msg Diag.src_too_big]
  else if dst_width > u32 s.overlay_width ∨ dst_height > u32 s.overlay_height then
    config_error s m [Event.msg Diag.dst_too_big]
  else if src_width ≠ dst_width ∨ src_height ≠ dst_height then
    config_error s m [Event.msg Diag.src_ne_dst]
  else
    config_open env
      { s with
        overlay_x := wrap32 (u32 (u32 s.overlay_width - dst_width) / 2)
        overlay_y := wrap32 (u32 (u32 s.overlay_height - dst_height) / 2) }
      m

/-! ## `draw_slice` -/

/-- The three source planes. -/
inductive Plane
  | Y
  | U
  | V
  deriving DecidableEq, Repr

/-- The decoder's image: the byte at each offset from `src[0]`, `src[1]`, `src[2]`. -/
structure Src where
  y : Int → Nat
  u : Int → Nat
  v : Int → Nat

/-- Byte of plane `p` at offset `off` from its source pointer. -/
def Src.read (img : Src) (p : Plane) (off : Int) : Nat :=
  match p with
  | Plane.Y => img.y off
  | Plane.U => img.u off
  | Plane.V => img.v off

/-- One call `fast_memcpy(dst, src[plane] + src, n)`. -/
structure Copy where
  plane : Plane
  dst : Int
  src : Int
  n : Nat
  deriving DecidableEq, Repr

/-- Effect of one `fast_memcpy` on memory. -/
def fast_memcpy (img : Src) (m : Mem) (c : Copy) : Mem :=
  fun a => if c.dst ≤ a ∧ a < c.dst + c.n then img.read c.plane (c.src + (a - c.dst)) else m a

/-- The luma loop: `rows` iterations starting with the pointers `dst_y`, `src_y`. -/
def luma_rows (overlay_width stride0 : Int) (n : Nat) : Nat → Int → Int → List Copy
  | 0, _, _ => []
  | rows + 1, dst_y, src_y =>
    { plane := Plane.Y, dst := dst_y, src := src_y, n := n } ::
      luma_rows overlay_width stride0 n rows (dst_y + overlay_width) (src_y + stride0)

/-- The chroma loop: each iteration copies one row of U, then one row of V. -/
def chroma_rows (overlay_width stride1 stride2 : Int) (n : Nat) :
    Nat → Int → Int → Int → Int → List Copy
  | 0, _, _, _, _ => []
  | rows + 1, dst_u, dst_v, src_u, src_v =>
    { plane := Plane.U, dst := dst_u, src := src_u, n := n } ::
    { plane := Plane.V, dst := dst_v, src := src_v, n := n } ::
      chroma_rows overlay_width stride1 stride2 n rows
        (dst_u + Int.tdiv overlay_width 2) (dst_v + Int.tdiv overlay_width 2)
        (src_u + stride1) (src_v + stride2)

/-- Outcome of `draw_slice`: status, driver state, memory, the `fast_memcpy` calls made,
diagnostics. -/
structure SliceResult where
  ret : Int
  st : State
  mem : Mem
  copies : List Copy
  log : List Event

/-- Draw a planar YUV slice to the buffer. -/
def draw_slice (s : State) (m : Mem) (img : Src) (stride0 stride1 stride2 : Int)
    (w h x y : Int) : SliceResult :=
  let x := wrap32 (x + s.overlay_x)
  let y := wrap32 (y + s.overlay_y)
  let dst_y := s.y_plane + wrap32 (y * s.overlay_width) + x
  let dst_u := s.u_plane + Int.tdiv (wrap32 (y * s.overlay_width)) 4 + Int.tdiv x 2
  let dst_v := s.v_plane + Int.tdiv (wrap32 (y * s.overlay_width)) 4 + Int.tdiv x 2
  if wrap32 (w + x) > s.overlay_width ∨ wrap32 (h + y) > s.overlay_height then
    { ret := 0, st := s, mem := m, copies := [], log := [Event.msg Diag.too_big_image] }
  else
    let copies :=
      luma_rows s.overlay_width stride0 (size_t w) h.toNat dst_y 0 ++
      chroma_rows s.overlay_width stride1 stride2 (size_t (Int.tdiv w 2)) (Int.tdiv h 2).toNat
        dst_u dst_v 0 0
    { ret := 0, st := s, mem := copies.foldl (fast_memcpy img) m, copies := copies, log := [] }

/-! ## States along `config` -/

/-- The state with which `config` reaches `open("/dev/fb2")`. -/
def centered (s : State) (dst_width dst_height : Int) : State :=
  { s with
    overlay_x := wrap32 (u32 (u32 s.overlay_width - dst_width) / 2)
    overlay_y := wrap32 (u32 (u32 s.overlay_height - dst_height) / 2) }

/-- The state in which `config` derives the plane pointers after a successful `mmap`. -/
def mapped (env : Env) (s : State) (dst_width dst_height : Int) : State :=
  { centered s dst_width dst_height with
    overlay_fd := env.fd
    overlay_mem_size := env.smem_len
    overlay_mem := env.mmap_result }

/-! ## Sample inputs -/

/-- A 320x240 main plane as `preinit` records it. -/
def qvga : State := (preinit { fb := 3, r := 0, xres := 320, yres := 240 } State.init).2.1

/-- A system in which every call of `config` succeeds; the overlay is mapped at `0x40000000`. -/
def okEnv : Env where
  fd := 4
  r_get_vscreeninfo := 0
  r_put_vscreeninfo := 0
  r_get_fscreeninfo := 0
  smem_len := 115200
  mmap_result := 0x40000000

/-- Memory holding zero everywhere. -/
def zeroMem : Mem := fun _ => 0

/-- The driver after `preinit` on a 320x240 main plane and `config(320,240,320,240)`. -/
def fullSurface : Result := config playerConsts okEnv qvga zeroMem 320 240 320 240 0 0x32315659

/-- The driver after `preinit` on a 320x240 main plane and `config(160,120,160,120)`: the
content is centred at offset `(80, 60)`. -/
def smallSurface : Result := config playerConsts okEnv qvga zeroMem 160 120 160 120 0 0x32315659

/-- The driver after `preinit` on a 320x240 main plane and `config(320,134,320,134)`: the
content is centred at offset `(0, 53)`. -/
def wideSurface : Result := config playerConsts okEnv qvga zeroMem 320 134 320 134 0 0x32315659

/-- A source image whose luma bytes lie in 200..249, U bytes in 60..109, V bytes in 190..239,
so that none equals a black level. -/
def rampImg : Src where
  y := fun k => (200 + k % 50).toNat
  u := fun k => (60 + k % 50).toNat
  v := fun k => (190 + k % 50).toNat

/-! ## Vocabulary for the slice copy -/

/-- Address `a` is among the bytes written by the call `c`. -/
def Copy.covers (c : Copy) (a : Int) : Prop := c.dst ≤ a ∧ a < c.dst + c.n

/-- The state holds the native size `(W, H)`, and a plane of that size is addressable with
the `int` arithmetic of the driver. -/
@[reducible] def NativeSize (s : State) (W H : Int) : Prop :=
  s.overlay_width = W ∧ s.overlay_height = H ∧ 0 ≤ W ∧ W < 2147483648 ∧ 0 ≤ H ∧
  H < 2147483648 ∧ W * H < 2147483648

/-- The slice has non-negative geometry, the centering offset is non-negative, and the
absolute position passes the bounds check of `draw_slice`. -/
@[reducible] def Accepted (s : State) (w h x y : Int) : Prop :=
  0 ≤ x ∧ 0 ≤ y ∧ 0 ≤ w ∧ 0 ≤ h ∧ 0 ≤ s.overlay_x ∧ 0 ≤ s.overlay_y ∧
  (x + s.overlay_x) + w ≤ s.overlay_width ∧ (y + s.overlay_y) + h ≤ s.overlay_height

/-- Plane layout inside the mapping, as `config` derives it. -/
@[reducible] def PlaneLayout (s : State) : Prop :=
  s.u_plane = s.y_plane + s.overlay_width * s.overlay_height ∧
  s.v_plane = s.u_plane + s.overlay_width * s.overlay_height / 4

/-- None of the sums formed by the bounds check of `draw_slice` leaves the range of `int`. -/
@[reducible] def NoWrap (s : State) (w h x y : Int) : Prop :=
  -2147483648 ≤ x + s.overlay_x ∧ x + s.overlay_x < 2147483648 ∧
  -2147483648 ≤ y + s.overlay_y ∧ y + s.overlay_y < 2147483648 ∧
  -2147483648 ≤ w + (x + s.overlay_x) ∧ w + (x + s.overlay_x) < 2147483648 ∧
  -2147483648 ≤ h + (y + s.overlay_y) ∧ h + (y + s.overlay_y) < 2147483648

/-! ## Vocabulary for resources and reachable states -/

/-- A system in which the calls of `config` succeed up to `mmap`, which returns `MAP_FAILED`. -/
def mmapFailEnv : Env where
  fd := 4
  r_get_vscreeninfo := 0
  r_put_vscreeninfo := 0
  r_get_fscreeninfo := 0
  smem_len := 115200
  mmap_result := MAP_FAILED

/-- A second successful system: another descriptor, the overlay mapped at `0x40100000`. -/
def okEnv2 : Env where
  fd := 5
  r_get_vscreeninfo := 0
  r_put_vscreeninfo := 0
  r_get_fscreeninfo := 0
  smem_len := 115200
  mmap_result := 0x40100000

/-- Effect of one event on the overlay descriptors that are open: a successful
`open("/dev/fb2")` adds its descriptor, `close` removes it. -/
def track_fds (live : List Int) (e : Event) : List Int :=
  match e with
  | Event.sys_open Dev.fb2 fd => if fd ≠ -1 then live ++ [fd] else live
  | Event.sys_close fd => live.erase fd
  | _ => live

/-- Overlay descriptors opened and not yet closed after the events of `log`. -/
def live_fds (log : List Event) : List Int := log.foldl track_fds []

/-- Effect of one event on the established mappings: a successful `mmap` adds its address,
`munmap` removes it. -/
def track_maps (live : List Int) (e : Event) : List Int :=
  match e with
  | Event.sys_mmap _ _ addr => if addr ≠ MAP_FAILED then live ++ [addr] else live
  | Event.sys_munmap addr _ => live.erase addr
  | _ => live

/-- Mappings established and not yet unmapped after the events of `log`. -/
def live_maps (log : List Event) : List Int := log.foldl track_maps []

/-- States the driver can be in: the initial state and whatever `preinit`, `config`,
`draw_slice` and `uninit` make of a reachable state, for any answers of the system, any
memory and any arguments. -/
inductive Reachable (K : Consts) : State → Prop
  | start : Reachable K State.init
  | by_preinit (p : ProbeEnv) (s : State) :
      Reachable K s → Reachable K (preinit p s).2.1
  | by_config (env : Env) (m : Mem) (src_width src_height dst_width dst_height flags format : Int)
      (s : State) :
      Reachable K s →
      Reachable K (config K env s m src_width src_height dst_width dst_height flags format).st
  | by_draw_slice (m : Mem) (img : Src) (stride0 stride1 stride2 w h x y : Int) (s : State) :
      Reachable K s → Reachable K (draw_slice s m img stride0 stride1 stride2 w h x y).st
  | by_uninit (s : State) : Reachable K s → Reachable K (uninit s).1

/-- Reachable states together with the plane size of the latest successful `config`: the
second index is `overlay_width * overlay_height`, as the code computes it in `int`, at the
latest `config` call that returned 0, and 0 before the first such call. -/
inductive ReachableWith (K : Consts) : State → Int → Prop
  | start : ReachableWith K State.init 0
  | by_preinit (p : ProbeEnv) (s : State) (n : Int) :
      ReachableWith K s n → ReachableWith K (preinit p s).2.1 n
  | by_config (env : Env) (m : Mem) (src_width src_height dst_width dst_height flags format : Int)
      (s : State) (n : Int) :
      ReachableWith K s n →
      ReachableWith K (config K env s m src_width src_height dst_width dst_height flags format).st
        (if (config K env s m src_width src_height dst_width dst_height flags format).ret = 0
          then wrap32 (s.overlay_width * s.overlay_height) else n)
  | by_draw_slice (m : Mem) (img : Src) (stride0 stride1 stride2 w h x y : Int) (s : State)
      (n : Int) :
      ReachableWith K s n →
      ReachableWith K (draw_slice s m img stride0 stride1 stride2 w h x y).st n
  | by_uninit (s : State) (n : Int) : ReachableWith K s n → ReachableWith K (uninit s).1 n

/-- The part of the pointer/mapping relation that the driver keeps, for the plane size `n`:
the mapping handle is never `MAP_FAILED`, and while it is not NULL the plane pointers are the
ones derived from it, `y_plane = overlay_mem`, `u_plane = y_plane + n`,
`v_plane = u_plane + n/4`. -/
def MappingInv (s : State) (n : Int) : Prop :=
  s.overlay_mem ≠ MAP_FAILED ∧
  (s.overlay_mem ≠ 0 →
    s.y_plane = s.overlay_mem ∧ s.u_plane = s.y_plane + n ∧
    s.v_plane = s.u_plane + Int.tdiv n 4)

/-! ## Arithmetic lemmas -/

theorem wrap32_of_range (z : Int) (h0 : -2147483648 ≤ z) (h1 : z < 2147483648) :
    wrap32 z = z := by
  unfold wrap32; omega

theorem u32_wrap32 (z : Int) : u32 (wrap32 z) = u32 z := by
  unfold u32 wrap32; omega

theorem u32_of_range (z : Int) (h0 : 0 ≤ z) (h1 : z < 4294967296) : u32 z = z := by
  unfold u32; omega

theorem size_t_of_range (z : Int) (h0 : 0 ≤ z) (h1 : z < 4294967296) :
    ((size_t z : Nat) : Int) = z := by
  unfold size_t
  rw [Int.toNat_of_nonneg (by omega)]
  omega

theorem nat_or_eq_zero (a b : Nat) (h : a ||| b = 0) : a = 0 ∧ b = 0 := by
  have hbit : ∀ i, (a.testBit i || b.testBit i) = false := by
    intro i
    rw [← Nat.testBit_or, h]
    simp
  constructor
  · apply Nat.eq_of_testBit_eq
    intro i
    have := hbit i
    simp only [Bool.or_eq_false_iff] at this
    simp [this.1]
  · apply Nat.eq_of_testBit_eq
    intro i
    have := hbit i
    simp only [Bool.or_eq_false_iff] at this
    simp [this.2]

/-! ## Format query -/

/-- C8: `vo_pxa_check_format` gives the flag set
`VFCAP_CSP_SUPPORTED | VFCAP_CSP_SUPPORTED_BY_HW | VFCAP_ACCEPT_STRIDE`, which is non-zero, on
the three planar formats and 0 on every other identifier; `control(VOCTRL_QUERY_FORMAT, &f)`
returns the same value, leaves the driver state as it was and gives the same answer in every
state, the initial one included. -/
theorem query_format_capabilities (K : Consts)
    (hK : K.VFCAP_CSP_SUPPORTED ≠ 0 ∨ K.VFCAP_CSP_SUPPORTED_BY_HW ≠ 0 ∨ K.VFCAP_ACCEPT_STRIDE ≠ 0)
    (s : State) (f : Int) :
    ((f = K.IMGFMT_YV12 ∨ f = K.IMGFMT_IYUV ∨ f = K.IMGFMT_I420) →
        (vo_pxa_check_format K f).1 =
          ((K.VFCAP_CSP_SUPPORTED ||| K.VFCAP_CSP_SUPPORTED_BY_HW ||| K.VFCAP_ACCEPT_STRIDE : Nat)
            : Int) ∧
        (vo_pxa_check_format K f).1 ≠ 0) ∧
    (¬ (f = K.IMGFMT_YV12 ∨ f = K.IMGFMT_IYUV ∨ f = K.IMGFMT_I420) →
        (vo_pxa_check_format K f).1 = 0) ∧
    (control K s K.VOCTRL_QUERY_FORMAT f).1 = (vo_pxa_check_format K f).1 ∧
    (control K s K.VOCTRL_QUERY_FORMAT f).2.1 = s ∧
    (control K s K.VOCTRL_QUERY_FORMAT f).1 = (control K State.init K.VOCTRL_QUERY_FORMAT f).1 := by
  refine ⟨?_, ?_, ?_, ?_, ?_⟩
  · intro hf
    have hne : (K.VFCAP_CSP_SUPPORTED ||| K.VFCAP_CSP_SUPPORTED_BY_HW ||| K.VFCAP_ACCEPT_STRIDE)
        ≠ 0 := by
      intro h0
      have h1 := nat_or_eq_zero _ _ h0
      have h2 := nat_or_eq_zero _ _ h1.1
      tauto
    simp only [vo_pxa_check_format, if_pos hf, true_and]
    exact_mod_cast hne
  · intro hf
    simp only [vo_pxa_check_format, if_neg hf]
  · simp [control]
  · simp [control]
  · simp [control]

/-- Witness of `query_format_capabilities` at the player's constants and `IMGFMT_YV12`. -/
theorem query_format_capabilities_witness :
    (vo_pxa_check_format playerConsts 0x32315659).1 = 1027 ∧
    (control playerConsts State.init 2 0x32315659).1 = 1027 :=
  have h := query_format_capabilities playerConsts (Or.inl (by decide)) State.init 0x32315659
  ⟨(h.1 (Or.inl rfl)).1.trans (by decide), (h.2.2.1).trans ((h.1 (Or.inl rfl)).1.trans (by decide))⟩

/-! ## Release -/

/-- C10: `uninit` is idempotent on the driver state; after it the mapping handle is NULL and
the device handle is -1, and a second `uninit` makes no `munmap` and no `close` call. -/
theorem uninit_idempotent (s : State) :
    (uninit (uninit s).1).1 = (uninit s).1 ∧
    (uninit s).1.overlay_mem = 0 ∧
    (uninit s).1.overlay_fd = -1 ∧
    (uninit (uninit s).1).2 = [] := by
  simp [uninit]

/-! ## Configuration -/

theorem config_error_ret (s : State) (m : Mem) (pre : List Event) :
    (config_error s m pre).ret = -1 := rfl

theorem config_open_success (env : Env) (s : State) (m : Mem)
    (h : (config_open env s m).ret = 0) :
    env.r_get_vscreeninfo = 0 ∧ env.r_put_vscreeninfo = 0 ∧ env.r_get_fscreeninfo = 0 ∧
    env.mmap_result ≠ MAP_FAILED ∧
    (config_open env s m).st =
      (config_fill { s with overlay_fd := env.fd, overlay_mem_size := env.smem_len,
                            overlay_mem := env.mmap_result } m []).st ∧
    (config_open env s m).mem =
      (config_fill { s with overlay_fd := env.fd, overlay_mem_size := env.smem_len,
                            overlay_mem := env.mmap_result } m []).mem := by
  unfold config_open at h ⊢
  by_cases h1 : env.r_get_vscreeninfo = 0
  · by_cases h2 : env.r_put_vscreeninfo = 0
    · by_cases h3 : env.r_get_fscreeninfo = 0
      · by_cases h4 : env.mmap_result = MAP_FAILED
        · simp [h1, h2, h3, h4, config_error_ret] at h
        · simp [h1, h2, h3, h4, config_fill]
      · simp [h1, h2, h3, config_error_ret] at h
    · simp [h1, h2, config_error_ret] at h
  · simp [h1, config_error_ret] at h

/-- What a successful `config` went through: every check passed, every system call
succeeded, and the result is the black fill over the freshly mapped state. -/
theorem config_success (K : Consts) (env : Env) (s : State) (m : Mem)
    (src_width src_height dst_width dst_height flags format : Int)
    (h : (config K env s m src_width src_height dst_width dst_height flags format).ret = 0) :
    (vo_pxa_check_format K format).1 ≠ 0 ∧
    src_width ≤ u32 s.overlay_width ∧ src_height ≤ u32 s.overlay_height ∧
    dst_width ≤ u32 s.overlay_width ∧ dst_height ≤ u32 s.overlay_height ∧
    src_width = dst_width ∧ src_height = dst_height ∧
    env.mmap_result ≠ MAP_FAILED ∧
    (config K env s m src_width src_height dst_width dst_height flags format).st =
      (config_fill (mapped env s dst_width dst_height) m []).st ∧
    (config K env s m src_width src_height dst_width dst_height flags format).mem =
      (config_fill (mapped env s dst_width dst_height) m []).mem := by
  unfold config at h ⊢
  by_cases h0 : (vo_pxa_check_format K format).1 = 0
  · simp [h0, config_error_ret] at h
  by_cases h1 : src_width > u32 s.overlay_width ∨ src_height > u32 s.overlay_height
  · simp [h0, h1, config_error_ret] at h
  by_cases h2 : dst_width > u32 s.overlay_width ∨ dst_height > u32 s.overlay_height
  · simp [h0, h1, h2, config_error_ret] at h
  by_cases h3 : src_width ≠ dst_width ∨ src_height ≠ dst_height
  · simp [h0, h1, h2, h3, config_error_ret] at h
  simp only [if_neg h0, if_neg h1, if_neg h2, if_neg h3] at h ⊢
  have ho := config_open_success env _ m h
  push_neg at h1 h2 h3
  refine ⟨h0, h1.1, h1.2, h2.1, h2.2, h3.1, h3.2, ho.2.2.2.1, ?_, ?_⟩
  · exact ho.2.2.2.2.1
  · exact ho.2.2.2.2.2

/-- C5: with a supported format, `config` fails when the source exceeds the probed native size,
otherwise when the destination exceeds it, otherwise when source and destination differ; the
first failing check alone is reported, the call returns -1, and its system calls are those of
the error exit (the ones `uninit` would make), so the overlay device is never opened. -/
theorem config_geometry_rejected (K : Consts) (env : Env) (s : State) (m : Mem)
    (nativeW nativeH srcW srcH dstW dstH flags format : Int)
    (hW : 0 ≤ nativeW ∧ nativeW < 4294967296) (hH : 0 ≤ nativeH ∧ nativeH < 4294967296)
    (hw : s.overlay_width = wrap32 nativeW) (hh : s.overlay_height = wrap32 nativeH)
    (hfmt : (vo_pxa_check_format K format).1 ≠ 0) :
    ((srcW > nativeW ∨ srcH > nativeH) →
      (config K env s m srcW srcH dstW dstH flags format).ret = -1 ∧
      (config K env s m srcW srcH dstW dstH flags format).log =
        Event.msg Diag.src_too_big :: (uninit s).2) ∧
    (¬ (srcW > nativeW ∨ srcH > nativeH) → (dstW > nativeW ∨ dstH > nativeH) →
      (config K env s m srcW srcH dstW dstH flags format).ret = -1 ∧
      (config K env s m srcW srcH dstW dstH flags format).log =
        Event.msg Diag.dst_too_big :: (uninit s).2) ∧
    (¬ (srcW > nativeW ∨ srcH > nativeH) → ¬ (dstW > nativeW ∨ dstH > nativeH) →
      (srcW ≠ dstW ∨ srcH ≠ dstH) →
      (config K env s m srcW srcH dstW dstH flags format).ret = -1 ∧
      (config K env s m srcW srcH dstW dstH flags format).log =
        Event.msg Diag.src_ne_dst :: (uninit s).2) ∧
    ((srcW > nativeW ∨ srcH > nativeH ∨ dstW > nativeW ∨ dstH > nativeH ∨
        srcW ≠ dstW ∨ srcH ≠ dstH) →
      (config K env s m srcW srcH dstW dstH flags format).ret ≠ 0 ∧
      ∀ fd, Event.sys_open Dev.fb2 fd ∉
        (config K env s m srcW srcH dstW dstH flags format).log) := by
  have huw : u32 s.overlay_width = nativeW := by
    rw [hw, u32_wrap32, u32_of_range _ hW.1 hW.2]
  have huh : u32 s.overlay_height = nativeH := by
    rw [hh, u32_wrap32, u32_of_range _ hH.1 hH.2]
  refine ⟨?_, ?_, ?_, ?_⟩
  · intro h1
    simp [config, hfmt, huw, huh, h1, config_error, uninit]
  · intro h1 h2
    simp [config, hfmt, huw, huh, h1, h2, config_error, uninit]
  · intro h1 h2 h3
    simp [config, hfmt, huw, huh, h1, h2, h3, config_error, uninit]
  · intro hany
    by_cases h1 : srcW > nativeW ∨ srcH > nativeH
    · simp only [config, if_neg hfmt, huw, huh, if_pos h1, config_error]
      refine ⟨by decide, ?_⟩
      intro fd hmem
      by_cases hm : s.overlay_mem = 0 <;> by_cases hf : s.overlay_fd = -1 <;>
        simp [hm, hf] at hmem
    by_cases h2 : dstW > nativeW ∨ dstH > nativeH
    · simp only [config, if_neg hfmt, huw, huh, if_neg h1, if_pos h2, config_error]
      refine ⟨by decide, ?_⟩
      intro fd hmem
      by_cases hm : s.overlay_mem = 0 <;> by_cases hf : s.overlay_fd = -1 <;>
        simp [hm, hf] at hmem
    have h3 : srcW ≠ dstW ∨ srcH ≠ dstH := by tauto
    simp only [config, if_neg hfmt, huw, huh, if_neg h1, if_neg h2, if_pos h3, config_error]
    refine ⟨by decide, ?_⟩
    intro fd hmem
    by_cases hm : s.overlay_mem = 0 <;> by_cases hf : s.overlay_fd = -1 <;>
      simp [hm, hf] at hmem

/-- Witness of `config_geometry_rejected`: on a 320x240 main plane, `config(320,240,640,480)`
passes the source check and is rejected by the destination check without any system call. -/
theorem config_geometry_rejected_witness :
    (config playerConsts okEnv qvga zeroMem 320 240 640 480 0 0x32315659).ret = -1 ∧
    (config playerConsts okEnv qvga zeroMem 320 240 640 480 0 0x32315659).log =
      [Event.msg Diag.dst_too_big] :=
  (config_geometry_rejected playerConsts okEnv qvga zeroMem 320 240 320 240 640 480 0 0x32315659
    (by decide) (by decide) (by decide) (by decide) (by decide)).2.1 (by decide) (by decide)

/-- C6: after a successful `config(w,h,w,h,format)` on a main plane of native size
`(N_w, N_h)`, the stored offset is `((N_w - w)/2, (N_h - h)/2)` with floor division; the
unsigned 32-bit subtraction and the store to `int` in the code do not change that value. -/
theorem config_centering_offset (K : Consts) (env : Env) (s : State) (m : Mem)
    (N_w N_h w h flags format : Int)
    (hW : 0 ≤ N_w ∧ N_w < 4294967296) (hH : 0 ≤ N_h ∧ N_h < 4294967296)
    (hsw : s.overlay_width = wrap32 N_w) (hsh : s.overlay_height = wrap32 N_h)
    (hw : 0 ≤ w ∧ w < 4294967296) (hh : 0 ≤ h ∧ h < 4294967296)
    (hok : (config K env s m w h w h flags format).ret = 0) :
    (config K env s m w h w h flags format).st.overlay_x = (N_w - w) / 2 ∧
    (config K env s m w h w h flags format).st.overlay_y = (N_h - h) / 2 := by
  have hs := config_success K env s m w h w h flags format hok
  have huw : u32 s.overlay_width = N_w := by
    rw [hsw, u32_wrap32, u32_of_range _ hW.1 hW.2]
  have huh : u32 s.overlay_height = N_h := by
    rw [hsh, u32_wrap32, u32_of_range _ hH.1 hH.2]
  have hwle : w ≤ N_w := huw ▸ hs.2.1
  have hhle : h ≤ N_h := huh ▸ hs.2.2.1
  rw [hs.2.2.2.2.2.2.2.2.1]
  simp only [config_fill, mapped, centered, huw, huh]
  constructor
  · rw [u32_of_range _ (by omega) (by omega), wrap32_of_range _ (by omega) (by omega)]
  · rw [u32_of_range _ (by omega) (by omega), wrap32_of_range _ (by omega) (by omega)]

/-- Witness of `config_centering_offset`: native 320x240 and `config(320,240,320,240)` give the
offset `(0,0)`. -/
theorem config_centering_offset_witness :
    (config playerConsts okEnv qvga zeroMem 320 240 320 240 0 0x32315659).ret = 0 ∧
    (config playerConsts okEnv qvga zeroMem 320 240 320 240 0 0x32315659).st.overlay_x = 0 ∧
    (config playerConsts okEnv qvga zeroMem 320 240 320 240 0 0x32315659).st.overlay_y = 0 :=
  ⟨by decide,
   (config_centering_offset playerConsts okEnv qvga zeroMem 320 240 320 240 0 0x32315659
      (by decide) (by decide) (by decide) (by decide) (by decide) (by decide) (by decide)).1,
   (config_centering_offset playerConsts okEnv qvga zeroMem 320 240 320 240 0 0x32315659
      (by decide) (by decide) (by decide) (by decide) (by decide) (by decide) (by decide)).2⟩

theorem memset_in (m : Mem) (dst c : Int) (n : Nat) (a : Int) (h0 : dst ≤ a) (h1 : a < dst + n) :
    memset m dst c n a = (c % 256).toNat := by
  simp [memset, h0, h1]

theorem memset_out (m : Mem) (dst c : Int) (n : Nat) (a : Int) (h : a < dst ∨ dst + n ≤ a) :
    memset m dst c n a = m a := by
  have : ¬ (dst ≤ a ∧ a < dst + n) := by omega
  simp [memset, this]

/-- C7: after a successful `config` on a main plane of native size `(W, H)` (with `W * H`
representable as `int`), whatever the content size, the plane bases are `Y = overlay_mem`,
`U = Y + W*H`, `V = U + W*H/4`, every byte at mapping offsets `[0, W*H)` is 16, every byte at
`[W*H, W*H + W*H/4)` is 128 and every byte at `[W*H + W*H/4, W*H + 2*(W*H/4))` is 128. -/
theorem config_black_fill (K : Consts) (env : Env) (s : State) (m : Mem)
    (W H src_width src_height dst_width dst_height flags format : Int)
    (hW : 0 ≤ W) (hH : 0 ≤ H) (hfit : W * H < 2147483648)
    (hsw : s.overlay_width = W) (hsh : s.overlay_height = H)
    (hok : (config K env s m src_width src_height dst_width dst_height flags format).ret = 0) :
    (config K env s m src_width src_height dst_width dst_height flags format).st.overlay_mem
      = env.mmap_result ∧
    (config K env s m src_width src_height dst_width dst_height flags format).st.y_plane
      = env.mmap_result ∧
    (config K env s m src_width src_height dst_width dst_height flags format).st.u_plane
      = env.mmap_result + W * H ∧
    (config K env s m src_width src_height dst_width dst_height flags format).st.v_plane
      = env.mmap_result + W * H + W * H / 4 ∧
    (∀ k : Int, 0 ≤ k → k < W * H →
      (config K env s m src_width src_height dst_width dst_height flags format).mem
        (env.mmap_result + k) = 16) ∧
    (∀ k : Int, W * H ≤ k → k < W * H + W * H / 4 →
      (config K env s m src_width src_height dst_width dst_height flags format).mem
        (env.mmap_result + k) = 128) ∧
    (∀ k : Int, W * H + W * H / 4 ≤ k → k < W * H + 2 * (W * H / 4) →
      (config K env s m src_width src_height dst_width dst_height flags format).mem
        (env.mmap_result + k) = 128) := by
  have hs := config_success K env s m src_width src_height dst_width dst_height flags format hok
  have hP : 0 ≤ W * H := Int.mul_nonneg hW hH
  rw [hs.2.2.2.2.2.2.2.2.1, hs.2.2.2.2.2.2.2.2.2]
  simp only [config_fill, mapped, centered, hsw, hsh]
  generalize W * H = P at hP hfit
  have hwr : wrap32 P = P := wrap32_of_range P (by omega) hfit
  have hdiv : Int.tdiv P 4 = P / 4 := Int.tdiv_eq_ediv hP (by decide)
  have hn : ((size_t P : Nat) : Int) = P := size_t_of_range P hP (by omega)
  have hn4 : ((size_t (P / 4) : Nat) : Int) = P / 4 := size_t_of_range _ (by omega) (by omega)
  rw [hwr, hdiv]
  refine ⟨trivial, trivial, rfl, rfl, ?_, ?_, ?_⟩
  · intro k hk0 hk1
    rw [memset_out _ _ _ _ _ (by omega), memset_out _ _ _ _ _ (by omega),
      memset_in _ _ _ _ _ (by omega) (by omega)]
    rfl
  · intro k hk0 hk1
    rw [memset_out _ _ _ _ _ (by omega), memset_in _ _ _ _ _ (by omega) (by omega)]
    rfl
  · intro k hk0 hk1
    rw [memset_in _ _ _ _ _ (by omega) (by omega)]
    rfl

/-- Witness of `config_black_fill`: native 320x240 with a 160x120 content; the first luma
byte, the first U byte and the last V byte of the mapping read back 16, 128, 128. -/
theorem config_black_fill_witness :
    (config playerConsts okEnv qvga zeroMem 160 120 160 120 0 0x32315659).ret = 0 ∧
    (config playerConsts okEnv qvga zeroMem 160 120 160 120 0 0x32315659).mem
      (okEnv.mmap_result + 0) = 16 ∧
    (config playerConsts okEnv qvga zeroMem 160 120 160 120 0 0x32315659).mem
      (okEnv.mmap_result + 76800) = 128 ∧
    (config playerConsts okEnv qvga zeroMem 160 120 160 120 0 0x32315659).mem
      (okEnv.mmap_result + 115199) = 128 :=
  have h := config_black_fill playerConsts okEnv qvga zeroMem 320 240 160 120 160 120 0 0x32315659
    (by decide) (by decide) (by decide) (by decide) (by decide) (by decide)
  ⟨by decide, h.2.2.2.2.1 0 (by decide) (by decide),
    h.2.2.2.2.2.1 76800 (by decide) (by decide),
    h.2.2.2.2.2.2 115199 (by decide) (by decide)⟩

/-! ## Slice copy: memory after a sequence of `fast_memcpy` calls -/

theorem fast_memcpy_covered (img : Src) (m : Mem) (c : Copy) (a : Int) (h : c.covers a) :
    fast_memcpy img m c a = img.read c.plane (c.src + (a - c.dst)) := by
  unfold Copy.covers at h
  simp [fast_memcpy, h]

theorem fast_memcpy_other (img : Src) (m : Mem) (c : Copy) (a : Int) (h : ¬ c.covers a) :
    fast_memcpy img m c a = m a := by
  unfold Copy.covers at h
  simp [fast_memcpy, h]

/-- A byte that no call covers keeps its value. -/
theorem foldl_memcpy_frame (img : Src) (a : Int) (cs : List Copy) :
    ∀ m : Mem, (∀ c ∈ cs, ¬ c.covers a) → cs.foldl (fast_memcpy img) m a = m a := by
  induction cs with
  | nil => intro m _; rfl
  | cons c cs ih =>
    intro m h
    rw [List.foldl_cons, ih _ (fun c' hc' => h c' (List.mem_cons_of_mem _ hc'))]
    exact fast_memcpy_other img m c a (h c (List.mem_cons_self _ _))

/-- If every call covering `a` writes `v` there, and some call covers `a` (or `a` held `v`
already), then `a` holds `v` in the end. -/
theorem foldl_memcpy_value (img : Src) (a : Int) (v : Nat) (cs : List Copy) :
    ∀ m : Mem, (∀ c ∈ cs, c.covers a → img.read c.plane (c.src + (a - c.dst)) = v) →
      ((∃ c ∈ cs, c.covers a) ∨ m a = v) → cs.foldl (fast_memcpy img) m a = v := by
  induction cs with
  | nil =>
    intro m _ h
    rcases h with ⟨c, hc, _⟩ | h
    · cases hc
    · exact h
  | cons c cs ih =>
    intro m hall hex
    rw [List.foldl_cons]
    apply ih _ (fun c' hc' => hall c' (List.mem_cons_of_mem _ hc'))
    by_cases hc : c.covers a
    · right
      rw [fast_memcpy_covered img m c a hc]
      exact hall c (List.mem_cons_self _ _) hc
    · rcases hex with ⟨c', hc', hcov⟩ | hm
      · rcases List.mem_cons.mp hc' with rfl | hin
        · exact absurd hcov hc
        · exact Or.inl ⟨c', hin, hcov⟩
      · right
        rw [fast_memcpy_other img m c a hc]
        exact hm

theorem mem_luma_rows (W stride0 : Int) (n : Nat) (c : Copy) :
    ∀ (rows : Nat) (dst_y src_y : Int),
      c ∈ luma_rows W stride0 n rows dst_y src_y ↔
        ∃ i : Nat, i < rows ∧
          c = { plane := Plane.Y, dst := dst_y + i * W, src := src_y + i * stride0, n := n } := by
  intro rows
  induction rows with
  | zero => intro dst_y src_y; simp [luma_rows]
  | succ k ih =>
    intro dst_y src_y
    simp only [luma_rows, List.mem_cons, ih]
    constructor
    · rintro (rfl | ⟨i, hi, rfl⟩)
      · exact ⟨0, by omega, by simp⟩
      · refine ⟨i + 1, by omega, ?_⟩
        simp only [Copy.mk.injEq, true_and, and_true]
        constructor <;> push_cast <;> ring
    · rintro ⟨i, hi, rfl⟩
      cases i with
      | zero => left; simp
      | succ j =>
        right
        refine ⟨j, by omega, ?_⟩
        simp only [Copy.mk.injEq, true_and, and_true]
        constructor <;> push_cast <;> ring

theorem mem_chroma_rows (W stride1 stride2 : Int) (n : Nat) (c : Copy) :
    ∀ (rows : Nat) (dst_u dst_v src_u src_v : Int),
      c ∈ chroma_rows W stride1 stride2 n rows dst_u dst_v src_u src_v ↔
        ∃ i : Nat, i < rows ∧
          (c = { plane := Plane.U, dst := dst_u + i * Int.tdiv W 2, src := src_u + i * stride1,
                 n := n } ∨
           c = { plane := Plane.V, dst := dst_v + i * Int.tdiv W 2, src := src_v + i * stride2,
                 n := n }) := by
  intro rows
  induction rows with
  | zero => intro dst_u dst_v src_u src_v; simp [chroma_rows]
  | succ k ih =>
    intro dst_u dst_v src_u src_v
    simp only [chroma_rows, List.mem_cons, ih]
    constructor
    · rintro (rfl | rfl | ⟨i, hi, rfl | rfl⟩)
      · exact ⟨0, by omega, Or.inl (by simp)⟩
      · exact ⟨0, by omega, Or.inr (by simp)⟩
      · refine ⟨i + 1, by omega, Or.inl ?_⟩
        simp only [Copy.mk.injEq, true_and, and_true]
        constructor <;> push_cast <;> ring
      · refine ⟨i + 1, by omega, Or.inr ?_⟩
        simp only [Copy.mk.injEq, true_and, and_true]
        constructor <;> push_cast <;> ring
    · rintro ⟨i, hi, h⟩
      cases i with
      | zero =>
        rcases h with rfl | rfl
        · left; simp
        · right; left; simp
      | succ j =>
        right; right
        refine ⟨j, by omega, ?_⟩
        rcases h with rfl | rfl
        · left
          simp only [Copy.mk.injEq, true_and, and_true]
          constructor <;> push_cast <;> ring
        · right
          simp only [Copy.mk.injEq, true_and, and_true]
          constructor <;> push_cast <;> ring

/-! ## Slice copy: the calls made for an accepted slice -/

theorem size_t_eq_toNat (z : Int) (h0 : 0 ≤ z) (h1 : z < 4294967296) : size_t z = z.toNat := by
  unfold size_t
  rw [Int.emod_eq_of_lt h0 h1]

/-- For an accepted slice no `int` operation of `draw_slice` wraps, the bounds check passes,
and the calls are the `h` luma rows followed by the `h/2` interleaved chroma rows. -/
theorem draw_slice_accepted (s : State) (m : Mem) (img : Src) (stride0 stride1 stride2 : Int)
    (w h x y W H : Int) (hn : NativeSize s W H) (ha : Accepted s w h x y) :
    (draw_slice s m img stride0 stride1 stride2 w h x y).copies =
      luma_rows W stride0 w.toNat h.toNat
        (s.y_plane + (y + s.overlay_y) * W + (x + s.overlay_x)) 0 ++
      chroma_rows W stride1 stride2 (w / 2).toNat (h / 2).toNat
        (s.u_plane + (y + s.overlay_y) * W / 4 + (x + s.overlay_x) / 2)
        (s.v_plane + (y + s.overlay_y) * W / 4 + (x + s.overlay_x) / 2) 0 0 ∧
    (draw_slice s m img stride0 stride1 stride2 w h x y).mem =
      (draw_slice s m img stride0 stride1 stride2 w h x y).copies.foldl (fast_memcpy img) m ∧
    (draw_slice s m img stride0 stride1 stride2 w h x y).log = [] := by
  obtain ⟨hsw, hsh, hW0, hW1, hH0, hH1, hfit⟩ := hn
  obtain ⟨hx, hy, hw, hh, hox, hoy, hbx, hby⟩ := ha
  rw [hsw] at hbx
  rw [hsh] at hby
  have hyW : (y + s.overlay_y) * W ≤ H * W :=
    Int.mul_le_mul_of_nonneg_right (by omega) hW0
  have hyW0 : 0 ≤ (y + s.overlay_y) * W := Int.mul_nonneg (by omega) hW0
  have hHW : H * W = W * H := Int.mul_comm H W
  have e1 : wrap32 (x + s.overlay_x) = x + s.overlay_x :=
    wrap32_of_range _ (by omega) (by omega)
  have e2 : wrap32 (y + s.overlay_y) = y + s.overlay_y :=
    wrap32_of_range _ (by omega) (by omega)
  have e3 : wrap32 ((y + s.overlay_y) * W) = (y + s.overlay_y) * W :=
    wrap32_of_range _ (by omega) (by omega)
  have e4 : wrap32 (w + (x + s.overlay_x)) = w + (x + s.overlay_x) :=
    wrap32_of_range _ (by omega) (by omega)
  have e5 : wrap32 (h + (y + s.overlay_y)) = h + (y + s.overlay_y) :=
    wrap32_of_range _ (by omega) (by omega)
  have e6 : Int.tdiv ((y + s.overlay_y) * W) 4 = (y + s.overlay_y) * W / 4 :=
    Int.tdiv_eq_ediv hyW0 (by decide)
  have e7 : Int.tdiv (x + s.overlay_x) 2 = (x + s.overlay_x) / 2 :=
    Int.tdiv_eq_ediv (by omega) (by decide)
  have e8 : Int.tdiv w 2 = w / 2 := Int.tdiv_eq_ediv hw (by decide)
  have e9 : Int.tdiv h 2 = h / 2 := Int.tdiv_eq_ediv hh (by decide)
  have e10 : size_t w = w.toNat := size_t_eq_toNat w hw (by omega)
  have e11 : size_t (w / 2) = (w / 2).toNat := size_t_eq_toNat _ (by omega) (by omega)
  have hchk : ¬ (w + (x + s.overlay_x) > W ∨ h + (y + s.overlay_y) > H) := by omega
  simp only [draw_slice, hsw, hsh, e1, e2, e3, e4, e5, e6, e7, e8, e9, e10, e11, if_neg hchk,
    and_self]

/-- Every call of an accepted slice is a luma row `i < h` or a chroma row `r < h/2`. -/
theorem draw_slice_copies_cases (s : State) (m : Mem) (img : Src)
    (stride0 stride1 stride2 : Int) (w h x y W H : Int)
    (hn : NativeSize s W H) (ha : Accepted s w h x y) (c : Copy)
    (hc : c ∈ (draw_slice s m img stride0 stride1 stride2 w h x y).copies) :
    (∃ i : Int, 0 ≤ i ∧ i < h ∧ c.plane = Plane.Y ∧
      c.dst = s.y_plane + (y + s.overlay_y) * W + (x + s.overlay_x) + i * W ∧
      c.src = i * stride0 ∧ (c.n : Int) = w) ∨
    (∃ r : Int, 0 ≤ r ∧ r < h / 2 ∧ c.plane = Plane.U ∧
      c.dst = s.u_plane + (y + s.overlay_y) * W / 4 + (x + s.overlay_x) / 2 + r * (W / 2) ∧
      c.src = r * stride1 ∧ (c.n : Int) = w / 2) ∨
    (∃ r : Int, 0 ≤ r ∧ r < h / 2 ∧ c.plane = Plane.V ∧
      c.dst = s.v_plane + (y + s.overlay_y) * W / 4 + (x + s.overlay_x) / 2 + r * (W / 2) ∧
      c.src = r * stride2 ∧ (c.n : Int) = w / 2) := by
  have hW0 : 0 ≤ W := hn.2.2.1
  have hw : 0 ≤ w := ha.2.2.1
  have hh : 0 ≤ h := ha.2.2.2.1
  have eW : Int.tdiv W 2 = W / 2 := Int.tdiv_eq_ediv hW0 (by decide)
  rw [(draw_slice_accepted s m img stride0 stride1 stride2 w h x y W H hn ha).1,
    List.mem_append, mem_luma_rows, mem_chroma_rows] at hc
  rcases hc with ⟨i, hi, rfl⟩ | ⟨r, hr, rfl | rfl⟩
  · left
    refine ⟨i, by omega, by omega, rfl, rfl, by simp, ?_⟩
    exact Int.toNat_of_nonneg hw
  · right; left
    refine ⟨r, by omega, by omega, rfl, by simp [eW], by simp, ?_⟩
    exact Int.toNat_of_nonneg (by omega)
  · right; right
    refine ⟨r, by omega, by omega, rfl, by simp [eW], by simp, ?_⟩
    exact Int.toNat_of_nonneg (by omega)

/-- Luma row `i < h` of an accepted slice is among the calls. -/
theorem draw_slice_luma_row_mem (s : State) (m : Mem) (img : Src)
    (stride0 stride1 stride2 : Int) (w h x y W H : Int)
    (hn : NativeSize s W H) (ha : Accepted s w h x y) (i : Int) (hi0 : 0 ≤ i) (hi : i < h) :
    ({ plane := Plane.Y, dst := s.y_plane + (y + s.overlay_y) * W + (x + s.overlay_x) + i * W,
       src := 0 + i * stride0, n := w.toNat } : Copy) ∈
      (draw_slice s m img stride0 stride1 stride2 w h x y).copies := by
  rw [(draw_slice_accepted s m img stride0 stride1 stride2 w h x y W H hn ha).1,
    List.mem_append, mem_luma_rows]
  left
  refine ⟨i.toNat, by omega, ?_⟩
  rw [Int.toNat_of_nonneg hi0]

/-! ## Slice copy: where the bytes of an accepted slice land -/

theorem luma_offset_bound (aY aX i k w h W H : Int) (h0 : 0 ≤ aY) (h1 : 0 ≤ aX) (hi0 : 0 ≤ i)
    (hi : i < h) (hby : aY + h ≤ H) (hbx : aX + w ≤ W) (hk0 : 0 ≤ k) (hk : k < w)
    (hW : 0 ≤ W) :
    0 ≤ aY * W + aX + i * W + k ∧ aY * W + aX + i * W + k < W * H := by
  have e1 : (aY + i + 1) * W ≤ H * W := Int.mul_le_mul_of_nonneg_right (by omega) hW
  have e2 : 0 ≤ aY * W := Int.mul_nonneg h0 hW
  have e3 : 0 ≤ i * W := Int.mul_nonneg hi0 hW
  constructor
  · omega
  · linarith

theorem chroma_offset_bound (aY aX r k w h W H : Int) (h0 : 0 ≤ aY) (h1 : 0 ≤ aX)
    (hr0 : 0 ≤ r) (hr : r < h / 2) (hby : aY + h ≤ H) (hbx : aX + w ≤ W) (hk0 : 0 ≤ k)
    (hk : k < w / 2) (hW : 0 ≤ W) (hh : 0 ≤ h) :
    0 ≤ aY * W / 4 + aX / 2 + r * (W / 2) + k ∧
    aY * W / 4 + aX / 2 + r * (W / 2) + k < W * H / 4 := by
  have e0 : 0 ≤ aY * W := Int.mul_nonneg h0 hW
  have e1 : (aY + h) * W ≤ H * W := Int.mul_le_mul_of_nonneg_right hby hW
  have e2 : (r + 1) * (W / 2) ≤ (h / 2) * (W / 2) :=
    Int.mul_le_mul_of_nonneg_right (by omega) (by omega)
  have e3 : (2 * (h / 2)) * (2 * (W / 2)) ≤ h * W :=
    Int.mul_le_mul (by omega) (by omega) (by omega) hh
  have e4 : 0 ≤ r * (W / 2) := Int.mul_nonneg hr0 (by omega)
  have e5 : 4 * (aY * W / 4) ≤ aY * W := by omega
  have e6 : aY * W / 4 + (r + 1) * (W / 2) ≤ W * H / 4 := by
    rw [Int.le_ediv_iff_mul_le (by decide)]
    nlinarith
  have e7 : aX / 2 + k + 1 ≤ W / 2 := by omega
  constructor
  · have : 0 ≤ aY * W / 4 := by omega
    omega
  · nlinarith

/-- Every byte written by an accepted slice lies in the plane its call targets. -/
theorem draw_slice_writes_in_plane (s : State) (m : Mem) (img : Src)
    (stride0 stride1 stride2 : Int) (w h x y W H : Int)
    (hn : NativeSize s W H) (ha : Accepted s w h x y) (c : Copy)
    (hc : c ∈ (draw_slice s m img stride0 stride1 stride2 w h x y).copies)
    (k : Int) (hk0 : 0 ≤ k) (hk : k < c.n) :
    (c.plane = Plane.Y ∧ 0 ≤ c.dst + k - s.y_plane ∧ c.dst + k - s.y_plane < W * H) ∨
    (c.plane = Plane.U ∧ 0 ≤ c.dst + k - s.u_plane ∧ c.dst + k - s.u_plane < W * H / 4) ∨
    (c.plane = Plane.V ∧ 0 ≤ c.dst + k - s.v_plane ∧ c.dst + k - s.v_plane < W * H / 4) := by
  have hcases := draw_slice_copies_cases s m img stride0 stride1 stride2 w h x y W H hn ha c hc
  obtain ⟨hsw, hsh, hW0, hW1, hH0, hH1, hfit⟩ := hn
  obtain ⟨hx, hy, hw, hh, hox, hoy, hbx, hby⟩ := ha
  rw [hsw] at hbx
  rw [hsh] at hby
  rcases hcases with ⟨i, hi0, hi, hp, hd, _, hcn⟩ | ⟨r, hr0, hr, hp, hd, _, hcn⟩ |
      ⟨r, hr0, hr, hp, hd, _, hcn⟩
  · left
    have hb := luma_offset_bound (y + s.overlay_y) (x + s.overlay_x) i k w h W H (by omega)
      (by omega) hi0 hi hby hbx hk0 (by omega) hW0
    refine ⟨hp, ?_, ?_⟩ <;> rw [hd] <;> omega
  · right; left
    have hb := chroma_offset_bound (y + s.overlay_y) (x + s.overlay_x) r k w h W H (by omega)
      (by omega) hr0 hr hby hbx hk0 (by omega) hW0 hh
    refine ⟨hp, ?_, ?_⟩ <;> rw [hd] <;> omega
  · right; right
    have hb := chroma_offset_bound (y + s.overlay_y) (x + s.overlay_x) r k w h W H (by omega)
      (by omega) hr0 hr hby hbx hk0 (by omega) hW0 hh
    refine ⟨hp, ?_, ?_⟩ <;> rw [hd] <;> omega

/-- No overrun while the sums of the bounds check do not overflow: for a native size `(W, H)`
addressable with `int`, a non-negative centering offset and a slice with `x, y, w, h >= 0`
for which `x + overlay_x + w <= W` and `y + overlay_y + h <= H` hold as integers, every byte
written by a luma copy has an offset in `[0, W*H)` from the luma base, and every byte written
by a U or V copy has an offset in `[0, W*H/4)` from the base of its own plane; hence a byte of
memory whose value changed lies in one of the three planes. -/
theorem draw_slice_no_overrun (s : State) (m : Mem) (img : Src)
    (stride0 stride1 stride2 : Int) (w h x y W H : Int)
    (hn : NativeSize s W H) (ha : Accepted s w h x y) :
    (∀ c ∈ (draw_slice s m img stride0 stride1 stride2 w h x y).copies,
      ∀ k : Int, 0 ≤ k → k < c.n →
        (c.plane = Plane.Y → 0 ≤ c.dst + k - s.y_plane ∧ c.dst + k - s.y_plane < W * H) ∧
        (c.plane = Plane.U →
          0 ≤ c.dst + k - s.u_plane ∧ c.dst + k - s.u_plane < W * H / 4) ∧
        (c.plane = Plane.V →
          0 ≤ c.dst + k - s.v_plane ∧ c.dst + k - s.v_plane < W * H / 4)) ∧
    (∀ a : Int, (draw_slice s m img stride0 stride1 stride2 w h x y).mem a ≠ m a →
      (0 ≤ a - s.y_plane ∧ a - s.y_plane < W * H) ∨
      (0 ≤ a - s.u_plane ∧ a - s.u_plane < W * H / 4) ∨
      (0 ≤ a - s.v_plane ∧ a - s.v_plane < W * H / 4)) := by
  constructor
  · intro c hc k hk0 hk
    rcases draw_slice_writes_in_plane s m img stride0 stride1 stride2 w h x y W H hn ha c hc k
      hk0 hk with ⟨hp, hb⟩ | ⟨hp, hb⟩ | ⟨hp, hb⟩
    · refine ⟨fun _ => hb, ?_, ?_⟩ <;> intro hq <;> rw [hp] at hq <;> cases hq
    · refine ⟨?_, fun _ => hb, ?_⟩ <;> intro hq <;> rw [hp] at hq <;> cases hq
    · refine ⟨?_, ?_, fun _ => hb⟩ <;> intro hq <;> rw [hp] at hq <;> cases hq
  · intro a hne
    by_contra hnot
    apply hne
    rw [(draw_slice_accepted s m img stride0 stride1 stride2 w h x y W H hn ha).2.1]
    apply foldl_memcpy_frame
    rintro c hc ⟨hc0, hc1⟩
    rcases draw_slice_writes_in_plane s m img stride0 stride1 stride2 w h x y W H hn ha c hc
      (a - c.dst) (by omega) (by omega) with ⟨_, hb⟩ | ⟨_, hb⟩ | ⟨_, hb⟩
    · exact hnot (Or.inl (by omega))
    · exact hnot (Or.inr (Or.inl (by omega)))
    · exact hnot (Or.inr (Or.inr (by omega)))

/-- Witness of `draw_slice_no_overrun`: native 320x240, `config(320,240,320,240)`, and a 16x16
slice at `(0,0)` with source strides 32, 16, 16. -/
theorem draw_slice_no_overrun_witness :
    NativeSize fullSurface.st 320 240 ∧ Accepted fullSurface.st 16 16 0 0 ∧
    (draw_slice fullSurface.st fullSurface.mem rampImg 32 16 16 16 16 0 0).copies.length = 32 ∧
    ∀ c ∈ (draw_slice fullSurface.st fullSurface.mem rampImg 32 16 16 16 16 0 0).copies,
      ∀ k : Int, 0 ≤ k → k < c.n →
        (c.plane = Plane.Y →
          0 ≤ c.dst + k - fullSurface.st.y_plane ∧ c.dst + k - fullSurface.st.y_plane < 320 * 240) ∧
        (c.plane = Plane.U →
          0 ≤ c.dst + k - fullSurface.st.u_plane ∧
          c.dst + k - fullSurface.st.u_plane < 320 * 240 / 4) ∧
        (c.plane = Plane.V →
          0 ≤ c.dst + k - fullSurface.st.v_plane ∧
          c.dst + k - fullSurface.st.v_plane < 320 * 240 / 4) :=
  ⟨by decide, by decide, by decide,
    (draw_slice_no_overrun fullSurface.st fullSurface.mem rampImg 32 16 16 16 16 0 0 320 240
      (by decide) (by decide)).1⟩

theorem div_mod_of_row_col (W q r k : Int) (h0 : 0 ≤ r) (h1 : r < W) (hk : k = q * W + r) :
    k / W = q ∧ k % W = r := by
  rw [Int.ediv_emod_unique (by omega)]
  refine ⟨?_, h0, h1⟩
  rw [hk, Int.mul_comm]
  omega

/-- A luma call of an accepted slice that covers `a` is row `i` of the slice, and `a` is
column `j` of that row; the byte it writes there is the source byte `i * stride0 + j`. -/
theorem luma_cover (s : State) (m : Mem) (img : Src) (stride0 stride1 stride2 : Int)
    (w h x y W H : Int) (hn : NativeSize s W H) (ha : Accepted s w h x y) (c : Copy)
    (hc : c ∈ (draw_slice s m img stride0 stride1 stride2 w h x y).copies)
    (hp : c.plane = Plane.Y) (a : Int) (hcov : c.covers a) :
    ∃ i j : Int, 0 ≤ i ∧ i < h ∧ 0 ≤ j ∧ j < w ∧
      a = s.y_plane + ((y + s.overlay_y + i) * W + (x + s.overlay_x) + j) ∧
      c.src + (a - c.dst) = i * stride0 + j := by
  rcases draw_slice_copies_cases s m img stride0 stride1 stride2 w h x y W H hn ha c hc with
    ⟨i, hi0, hi, _, hd, hsrc, hcn⟩ | ⟨r, _, _, hq, _⟩ | ⟨r, _, _, hq, _⟩
  · obtain ⟨hc0, hc1⟩ := hcov
    refine ⟨i, a - c.dst, hi0, hi, by omega, by omega, ?_, by rw [hsrc]⟩
    rw [hd]
    ring
  · rw [hp] at hq; cases hq
  · rw [hp] at hq; cases hq

/-- With the plane layout of `config`, no chroma call of an accepted slice touches the luma
plane. -/
theorem chroma_not_luma (s : State) (m : Mem) (img : Src) (stride0 stride1 stride2 : Int)
    (w h x y W H : Int) (hn : NativeSize s W H) (ha : Accepted s w h x y) (hl : PlaneLayout s)
    (c : Copy) (hc : c ∈ (draw_slice s m img stride0 stride1 stride2 w h x y).copies)
    (hp : c.plane ≠ Plane.Y) (k : Int) (hk : k < W * H) : ¬ c.covers (s.y_plane + k) := by
  rintro ⟨hc0, hc1⟩
  have hb := draw_slice_writes_in_plane s m img stride0 stride1 stride2 w h x y W H hn ha c hc
    (s.y_plane + k - c.dst) (by omega) (by omega)
  obtain ⟨hsw, hsh, hW0, hW1, hH0, hH1, hfit⟩ := hn
  obtain ⟨hu, hv⟩ := hl
  rw [hsw, hsh] at hu hv
  have hP : 0 ≤ W * H := Int.mul_nonneg hW0 hH0
  rcases hb with ⟨hq, _⟩ | ⟨_, hb0, _⟩ | ⟨_, hb0, _⟩
  · exact hp hq
  · omega
  · omega

/-- Frame of the luma copy while the sums of the bounds check do not overflow: for a slice
with `x, y, w, h >= 0` for which `x + overlay_x + w <= W` and `y + overlay_y + h <= H` hold as
integers, on a surface of native width `W` laid out by `config`, every luma byte `k` whose row
`k / W` and column `k % W` lie outside the rectangle `[absY, absY + h) x [absX, absX + w)`
keeps the value it had before the call (so does every byte below the luma base). -/
theorem draw_slice_luma_frame (s : State) (m : Mem) (img : Src)
    (stride0 stride1 stride2 : Int) (w h x y W H : Int)
    (hn : NativeSize s W H) (ha : Accepted s w h x y) (hl : PlaneLayout s)
    (k : Int) (hk1 : k < W * H)
    (hout : ¬ (y + s.overlay_y ≤ k / W ∧ k / W < y + s.overlay_y + h ∧
               x + s.overlay_x ≤ k % W ∧ k % W < x + s.overlay_x + w)) :
    (draw_slice s m img stride0 stride1 stride2 w h x y).mem (s.y_plane + k) =
      m (s.y_plane + k) := by
  rw [(draw_slice_accepted s m img stride0 stride1 stride2 w h x y W H hn ha).2.1]
  apply foldl_memcpy_frame
  intro c hc hcov
  by_cases hp : c.plane = Plane.Y
  · obtain ⟨i, j, hi0, hi, hj0, hj, hab, _⟩ :=
      luma_cover s m img stride0 stride1 stride2 w h x y W H hn ha c hc hp _ hcov
    have hbx : (x + s.overlay_x) + w ≤ W := hn.1 ▸ ha.2.2.2.2.2.2.1
    have hx0 : 0 ≤ x + s.overlay_x := Int.add_nonneg ha.1 ha.2.2.2.2.1
    have hkk : k = (y + s.overlay_y + i) * W + ((x + s.overlay_x) + j) := by omega
    have hdm := div_mod_of_row_col W (y + s.overlay_y + i) ((x + s.overlay_x) + j) k
      (by omega) (by omega) hkk
    apply hout
    rw [hdm.1, hdm.2]
    omega
  · exact chroma_not_luma s m img stride0 stride1 stride2 w h x y W H hn ha hl c hc hp k hk1
      hcov

/-- Witness of `draw_slice_luma_frame`: native 320x240, `config(320,240,320,240)`, a 16x16
block at `(0,0)`; the luma pixels at column 17 of row 0 and at column 0 of row 17 stay at the
black level 16. -/
theorem draw_slice_luma_frame_witness :
    (draw_slice fullSurface.st fullSurface.mem rampImg 32 16 16 16 16 0 0).mem
      (fullSurface.st.y_plane + 17) = 16 ∧
    (draw_slice fullSurface.st fullSurface.mem rampImg 32 16 16 16 16 0 0).mem
      (fullSurface.st.y_plane + 5440) = 16 :=
  ⟨(draw_slice_luma_frame fullSurface.st fullSurface.mem rampImg 32 16 16 16 16 0 0 320 240
      (by decide) (by decide) (by decide) 17 (by decide) (by decide)).trans
      (by decide),
   (draw_slice_luma_frame fullSurface.st fullSurface.mem rampImg 32 16 16 16 16 0 0 320 240
      (by decide) (by decide) (by decide) 5440 (by decide) (by decide)).trans
      (by decide)⟩

/-! ## Slice copy on a configured surface -/

/-- What a successful `config` establishes on a main plane of native size `(W, H)`: the native
size is kept, the planes are laid out back to back, the content fits, and the centering offset
is non-negative and equal to half the margin. -/
theorem config_surface (K : Consts) (env : Env) (s : State) (m : Mem)
    (src_width src_height dst_width dst_height flags format W H : Int)
    (hn : NativeSize s W H)
    (hok : (config K env s m src_width src_height dst_width dst_height flags format).ret = 0) :
    NativeSize (config K env s m src_width src_height dst_width dst_height flags format).st W H ∧
    PlaneLayout (config K env s m src_width src_height dst_width dst_height flags format).st ∧
    dst_width ≤ W ∧ dst_height ≤ H ∧
    0 ≤ (config K env s m src_width src_height dst_width dst_height flags format).st.overlay_x ∧
    0 ≤ (config K env s m src_width src_height dst_width dst_height flags format).st.overlay_y ∧
    (0 ≤ dst_width →
      (config K env s m src_width src_height dst_width dst_height flags format).st.overlay_x
        = (W - dst_width) / 2) ∧
    (0 ≤ dst_height →
      (config K env s m src_width src_height dst_width dst_height flags format).st.overlay_y
        = (H - dst_height) / 2) := by
  have hs := config_success K env s m src_width src_height dst_width dst_height flags format hok
  obtain ⟨hsw, hsh, hW0, hW1, hH0, hH1, hfit⟩ := hn
  have hP : 0 ≤ W * H := Int.mul_nonneg hW0 hH0
  have huW : u32 W = W := u32_of_range _ hW0 (by omega)
  have huH : u32 H = H := u32_of_range _ hH0 (by omega)
  have hdw : dst_width ≤ W := by
    have := hs.2.2.2.1
    rw [hsw, huW] at this
    exact this
  have hdh : dst_height ≤ H := by
    have := hs.2.2.2.2.1
    rw [hsh, huH] at this
    exact this
  have hwr : wrap32 (W * H) = W * H := wrap32_of_range _ (by omega) hfit
  have hdiv : Int.tdiv (W * H) 4 = W * H / 4 := Int.tdiv_eq_ediv hP (by decide)
  have hx : wrap32 (u32 (W - dst_width) / 2) = u32 (W - dst_width) / 2 := by
    apply wrap32_of_range <;> unfold u32 <;> omega
  have hy : wrap32 (u32 (H - dst_height) / 2) = u32 (H - dst_height) / 2 := by
    apply wrap32_of_range <;> unfold u32 <;> omega
  rw [hs.2.2.2.2.2.2.2.2.1]
  simp only [config_fill, mapped, centered, hsw, hsh, huW, huH, hwr, hdiv, hx, hy]
  refine ⟨⟨rfl, rfl, hW0, hW1, hH0, hH1, hfit⟩, ⟨rfl, rfl⟩, hdw, hdh, ?_, ?_, ?_, ?_⟩
  · unfold u32; omega
  · unfold u32; omega
  · intro h0
    rw [u32_of_range _ (by omega) (by omega)]
  · intro h0
    rw [u32_of_range _ (by omega) (by omega)]

/-- C1: on a main plane of native size `(W, H)` (addressable with `int`), after a successful
`config(w_cfg, h_cfg, w_cfg, h_cfg)` with centering offset `(ox, oy)`, for every source
stride and every slice with `x, y, w, h >= 0`, `x + w <= w_cfg` and `y + h <= h_cfg`, after
`draw_slice` the luma plane holds `srcY[i * stride0 + j]` at `(oy + y + i) * W + (ox + x) + j`
for all `0 <= i < h`, `0 <= j < w`: the destination pitch is the native width `W`. -/
theorem draw_slice_luma_copy (K : Consts) (env : Env) (s0 : State) (m0 : Mem)
    (W H w_cfg h_cfg flags format : Int) (s : State) (m : Mem) (img : Src)
    (stride0 stride1 stride2 w h x y : Int)
    (hn : NativeSize s0 W H)
    (hok : (config K env s0 m0 w_cfg h_cfg w_cfg h_cfg flags format).ret = 0)
    (hs : s = (config K env s0 m0 w_cfg h_cfg w_cfg h_cfg flags format).st)
    (hx : 0 ≤ x) (hy : 0 ≤ y) (hw : 0 ≤ w) (hh : 0 ≤ h)
    (hbx : x + w ≤ w_cfg) (hby : y + h ≤ h_cfg)
    (i j : Int) (hi0 : 0 ≤ i) (hi : i < h) (hj0 : 0 ≤ j) (hj : j < w) :
    s.overlay_x = (W - w_cfg) / 2 ∧ s.overlay_y = (H - h_cfg) / 2 ∧
    (draw_slice s m img stride0 stride1 stride2 w h x y).mem
      (s.y_plane + ((s.overlay_y + y + i) * W + (s.overlay_x + x) + j)) =
        img.y (i * stride0 + j) := by
  obtain ⟨hn', hl, hcw, hch, hox, hoy, hxe, hye⟩ :=
    config_surface K env s0 m0 w_cfg h_cfg w_cfg h_cfg flags format W H hn hok
  rw [← hs] at hn' hl hox hoy hxe hye
  have hxe' := hxe (by omega)
  have hye' := hye (by omega)
  have ha : Accepted s w h x y := by
    refine ⟨hx, hy, hw, hh, hox, hoy, ?_, ?_⟩
    · rw [hn'.1]; omega
    · rw [hn'.2.1]; omega
  refine ⟨hxe', hye', ?_⟩
  have hbx' : (x + s.overlay_x) + w ≤ W := hn'.1 ▸ ha.2.2.2.2.2.2.1
  rw [(draw_slice_accepted s m img stride0 stride1 stride2 w h x y W H hn' ha).2.1]
  apply foldl_memcpy_value
  · intro c hc hcov
    by_cases hp : c.plane = Plane.Y
    · obtain ⟨i', j', hi0', hi', hj0', hj', hab, hsrc⟩ :=
        luma_cover s m img stride0 stride1 stride2 w h x y W H hn' ha c hc hp _ hcov
      have h1 := div_mod_of_row_col W (y + s.overlay_y + i) ((x + s.overlay_x) + j)
        ((s.overlay_y + y + i) * W + (s.overlay_x + x) + j) (by omega) (by omega) (by ring)
      have h2 := div_mod_of_row_col W (y + s.overlay_y + i') ((x + s.overlay_x) + j')
        ((s.overlay_y + y + i) * W + (s.overlay_x + x) + j) (by omega) (by omega) (by omega)
      have hii : i' = i := by omega
      have hjj : j' = j := by omega
      rw [hp, hsrc, hii, hjj]
      rfl
    · have hlt := (luma_offset_bound (y + s.overlay_y) (x + s.overlay_x) i j w h W H
        (by omega) (by omega) hi0 hi (hn'.2.1 ▸ ha.2.2.2.2.2.2.2) hbx' hj0 hj hn'.2.2.1).2
      exact absurd hcov (chroma_not_luma s m img stride0 stride1 stride2 w h x y W H hn' ha hl
        c hc hp _ (by linarith))
  · left
    refine ⟨_, draw_slice_luma_row_mem s m img stride0 stride1 stride2 w h x y W H hn' ha i
      hi0 hi, ?_⟩
    constructor
    · show s.y_plane + (y + s.overlay_y) * W + (x + s.overlay_x) + i * W ≤ _
      linarith
    · show _ < s.y_plane + (y + s.overlay_y) * W + (x + s.overlay_x) + i * W + ((w.toNat : Nat) : Int)
      rw [Int.toNat_of_nonneg hw]
      linarith

/-- Witness of `draw_slice_luma_copy`: native 320x240, `config(160,120,160,120)` (offset
`(80, 60)`), a 16x16 slice at `(0,0)` with source stride 32 > 16; the byte of row 1, column 2
lands at luma offset `61 * 320 + 82`. -/
theorem draw_slice_luma_copy_witness :
    smallSurface.st.overlay_x = 80 ∧ smallSurface.st.overlay_y = 60 ∧
    (draw_slice smallSurface.st smallSurface.mem rampImg 32 16 16 16 16 0 0).mem
      (smallSurface.st.y_plane + 19602) = rampImg.y 34 :=
  have h := draw_slice_luma_copy playerConsts okEnv qvga zeroMem 320 240 160 120 0 0x32315659
    smallSurface.st smallSurface.mem rampImg 32 16 16 16 16 0 0 (by decide) (by decide) rfl
    (by decide) (by decide) (by decide) (by decide) (by decide) (by decide)
    1 2 (by decide) (by decide) (by decide) (by decide)
  ⟨h.1, h.2.1, h.2.2⟩

/-! ## Slice copy: rejection -/

/-- A slice whose absolute position fails the bounds check is rejected wholesale: no call of
`fast_memcpy`, memory and driver state as before, one diagnostic, status 0. -/
theorem draw_slice_rejected (s : State) (m : Mem) (img : Src) (stride0 stride1 stride2 : Int)
    (w h x y : Int) (hr : NoWrap s w h x y)
    (hout : (x + s.overlay_x) + w > s.overlay_width ∨ (y + s.overlay_y) + h > s.overlay_height) :
    (draw_slice s m img stride0 stride1 stride2 w h x y).mem = m ∧
    (draw_slice s m img stride0 stride1 stride2 w h x y).copies = [] ∧
    (draw_slice s m img stride0 stride1 stride2 w h x y).st = s ∧
    (draw_slice s m img stride0 stride1 stride2 w h x y).ret = 0 ∧
    (draw_slice s m img stride0 stride1 stride2 w h x y).log = [Event.msg Diag.too_big_image] := by
  obtain ⟨hx0, hx1, hy0, hy1, hw0, hw1, hh0, hh1⟩ := hr
  have e1 : wrap32 (x + s.overlay_x) = x + s.overlay_x := wrap32_of_range _ hx0 hx1
  have e2 : wrap32 (y + s.overlay_y) = y + s.overlay_y := wrap32_of_range _ hy0 hy1
  have e4 : wrap32 (w + (x + s.overlay_x)) = w + (x + s.overlay_x) := wrap32_of_range _ hw0 hw1
  have e5 : wrap32 (h + (y + s.overlay_y)) = h + (y + s.overlay_y) := wrap32_of_range _ hh0 hh1
  have hchk : w + (x + s.overlay_x) > s.overlay_width ∨ h + (y + s.overlay_y) > s.overlay_height := by
    omega
  simp only [draw_slice, e1, e2, e4, e5, if_pos hchk, and_self]

/-- C3, counterexample: on a 320x240 main plane configured to 160x120 (offset `(80, 60)`), the
slice `x = 0, y = 0, w = 200, h = 2` has `x + w > w_cfg`, yet it is drawn: the luma byte at
row 60, column 80 changes from 16 to the first source byte. -/
theorem draw_slice_configured_size_counterexample :
    smallSurface.ret = 0 ∧ (0 : Int) + 200 > 160 ∧
    smallSurface.mem (smallSurface.st.y_plane + 19280) = 16 ∧
    (draw_slice smallSurface.st smallSurface.mem rampImg 200 100 100 200 2 0 0).mem
      (smallSurface.st.y_plane + 19280) = 200 := by
  decide

/-- C3, amended: after a successful `config(w_cfg, h_cfg, w_cfg, h_cfg)` on a main plane of
native size `(W, H)`, a slice (whose sums stay in the range of `int`) with
`x + ox + w > W` or `y + oy + h > H`, where `(ox, oy)` is the centering offset, leaves every
byte of memory unmodified and makes no copy; with `w_cfg = W` and `h_cfg = H` these are the
slices with `x + w > w_cfg` or `y + h > h_cfg`. -/
theorem draw_slice_rejects_beyond_native (K : Consts) (env : Env) (s0 : State) (m0 : Mem)
    (W H w_cfg h_cfg flags format : Int) (s : State) (m : Mem) (img : Src)
    (stride0 stride1 stride2 w h x y : Int)
    (hn : NativeSize s0 W H)
    (hok : (config K env s0 m0 w_cfg h_cfg w_cfg h_cfg flags format).ret = 0)
    (hs : s = (config K env s0 m0 w_cfg h_cfg w_cfg h_cfg flags format).st)
    (hr : NoWrap s w h x y) :
    ((x + s.overlay_x) + w > W ∨ (y + s.overlay_y) + h > H →
      (draw_slice s m img stride0 stride1 stride2 w h x y).mem = m ∧
      (draw_slice s m img stride0 stride1 stride2 w h x y).copies = []) ∧
    (w_cfg = W → h_cfg = H → x + w > w_cfg ∨ y + h > h_cfg →
      (draw_slice s m img stride0 stride1 stride2 w h x y).mem = m ∧
      (draw_slice s m img stride0 stride1 stride2 w h x y).copies = []) := by
  obtain ⟨hn', _, _, _, hox, hoy, hxe, hye⟩ :=
    config_surface K env s0 m0 w_cfg h_cfg w_cfg h_cfg flags format W H hn hok
  rw [← hs] at hn' hox hoy hxe hye
  constructor
  · intro hout
    have h := draw_slice_rejected s m img stride0 stride1 stride2 w h x y hr
      (by rw [hn'.1, hn'.2.1]; exact hout)
    exact ⟨h.1, h.2.1⟩
  · intro hw hh hout
    have hx0 := hxe (by rw [hw]; exact hn'.2.2.1)
    have hy0 := hye (by rw [hh]; exact hn'.2.2.2.2.1)
    have h := draw_slice_rejected s m img stride0 stride1 stride2 w h x y hr
      (by rw [hn'.1, hn'.2.1]; omega)
    exact ⟨h.1, h.2.1⟩

/-- Witness of `draw_slice_rejects_beyond_native`: native 320x240, `config(320,240,320,240)`;
the 16x16 slice at `(310, 235)` is rejected and memory is as before. -/
theorem draw_slice_rejects_beyond_native_witness :
    (draw_slice fullSurface.st fullSurface.mem rampImg 16 8 8 16 16 310 235).mem =
      fullSurface.mem ∧
    (draw_slice fullSurface.st fullSurface.mem rampImg 16 8 8 16 16 310 235).copies = [] :=
  (draw_slice_rejects_beyond_native playerConsts okEnv qvga zeroMem 320 240 320 240 0 0x32315659
    fullSurface.st fullSurface.mem rampImg 16 8 8 16 16 310 235 (by decide) (by decide) rfl
    (by decide)).1 (by decide)

/-! ## Slice copy: chroma position on an odd row -/

/-- C2, failing input: on a 320x240 main plane, `config(320,134,320,134)` centres the content
at row 53.  For the 16x16 slice at `(0,0)` the first U and V bytes belong at chroma offset
`(53/2) * (320/2) = 4160`; `draw_slice` leaves the black level 128 there and writes them at
offset `53 * 320 / 4 = 4240`, half a chroma row further. -/
theorem draw_slice_chroma_odd_row :
    wideSurface.ret = 0 ∧ wideSurface.st.overlay_y = 53 ∧ wideSurface.st.overlay_x = 0 ∧
    Accepted wideSurface.st 16 16 0 0 ∧
    rampImg.u (0 * 8 + 0) = 60 ∧ rampImg.v (0 * 8 + 0) = 190 ∧
    (draw_slice wideSurface.st wideSurface.mem rampImg 16 8 8 16 16 0 0).mem
      (wideSurface.st.u_plane + ((53 / 2 + 0) * (320 / 2) + 0 / 2 + 0)) = 128 ∧
    (draw_slice wideSurface.st wideSurface.mem rampImg 16 8 8 16 16 0 0).mem
      (wideSurface.st.v_plane + ((53 / 2 + 0) * (320 / 2) + 0 / 2 + 0)) = 128 ∧
    (draw_slice wideSurface.st wideSurface.mem rampImg 16 8 8 16 16 0 0).mem
      (wideSurface.st.u_plane + 4240) = 60 ∧
    (draw_slice wideSurface.st wideSurface.mem rampImg 16 8 8 16 16 0 0).mem
      (wideSurface.st.v_plane + 4240) = 190 := by
  decide

/-- Chroma row `r < h/2` of an accepted slice is among the calls, for U and for V. -/
theorem draw_slice_chroma_row_mem (s : State) (m : Mem) (img : Src)
    (stride0 stride1 stride2 : Int) (w h x y W H : Int)
    (hn : NativeSize s W H) (ha : Accepted s w h x y) (r : Int) (hr0 : 0 ≤ r) (hr : r < h / 2) :
    ({ plane := Plane.U,
       dst := s.u_plane + (y + s.overlay_y) * W / 4 + (x + s.overlay_x) / 2 + r * (W / 2),
       src := 0 + r * stride1, n := (w / 2).toNat } : Copy) ∈
      (draw_slice s m img stride0 stride1 stride2 w h x y).copies ∧
    ({ plane := Plane.V,
       dst := s.v_plane + (y + s.overlay_y) * W / 4 + (x + s.overlay_x) / 2 + r * (W / 2),
       src := 0 + r * stride2, n := (w / 2).toNat } : Copy) ∈
      (draw_slice s m img stride0 stride1 stride2 w h x y).copies := by
  have eW : Int.tdiv W 2 = W / 2 := Int.tdiv_eq_ediv hn.2.2.1 (by decide)
  rw [(draw_slice_accepted s m img stride0 stride1 stride2 w h x y W H hn ha).1]
  simp only [List.mem_append, mem_chroma_rows, eW]
  constructor
  · right
    exact ⟨r.toNat, by omega, Or.inl (by rw [Int.toNat_of_nonneg hr0])⟩
  · right
    exact ⟨r.toNat, by omega, Or.inr (by rw [Int.toNat_of_nonneg hr0])⟩

theorem even_row_offset (aY W : Int) (hY : aY % 2 = 0) (hW : W % 2 = 0) :
    aY * W / 4 = aY / 2 * (W / 2) := by
  have h1 : aY = 2 * (aY / 2) := by omega
  have h2 : W = 2 * (W / 2) := by omega
  have h3 : aY * W = 4 * (aY / 2 * (W / 2)) := by
    conv_lhs => rw [h1, h2]
    ring
  rw [h3, Int.mul_ediv_cancel_left _ (by decide)]

/-- On even rows of a surface of even native width the chroma copy is the 4:2:0 one: for an
accepted slice whose absolute row `absY` is even, `draw_slice` leaves `srcU[r * stride1 + c]`
at `U[(absY/2 + r) * (W/2) + absX/2 + c]` and `srcV[r * stride2 + c]` at the same offset of V,
for `0 <= r < h/2`, `0 <= c < w/2`. -/
theorem draw_slice_chroma_copy_even (s : State) (m : Mem) (img : Src)
    (stride0 stride1 stride2 : Int) (w h x y W H : Int)
    (hn : NativeSize s W H) (ha : Accepted s w h x y) (hl : PlaneLayout s)
    (hWe : W % 2 = 0) (hYe : (y + s.overlay_y) % 2 = 0)
    (r c : Int) (hr0 : 0 ≤ r) (hr : r < h / 2) (hc0 : 0 ≤ c) (hc : c < w / 2) :
    (draw_slice s m img stride0 stride1 stride2 w h x y).mem
      (s.u_plane + (((y + s.overlay_y) / 2 + r) * (W / 2) + (x + s.overlay_x) / 2 + c)) =
        img.u (r * stride1 + c) ∧
    (draw_slice s m img stride0 stride1 stride2 w h x y).mem
      (s.v_plane + (((y + s.overlay_y) / 2 + r) * (W / 2) + (x + s.overlay_x) / 2 + c)) =
        img.v (r * stride2 + c) := by
  have hmem := draw_slice_chroma_row_mem s m img stride0 stride1 stride2 w h x y W H hn ha r
    hr0 hr
  have hev := even_row_offset (y + s.overlay_y) W hYe hWe
  have hbx : (x + s.overlay_x) + w ≤ W := hn.1 ▸ ha.2.2.2.2.2.2.1
  have hby : (y + s.overlay_y) + h ≤ H := hn.2.1 ▸ ha.2.2.2.2.2.2.2
  have hx0 : 0 ≤ x + s.overlay_x := Int.add_nonneg ha.1 ha.2.2.2.2.1
  have hy0 : 0 ≤ y + s.overlay_y := Int.add_nonneg ha.2.1 ha.2.2.2.2.2.1
  have hw : 0 ≤ w := ha.2.2.1
  have hb := chroma_offset_bound (y + s.overlay_y) (x + s.overlay_x) r c w h W H hy0 hx0 hr0 hr
    hby hbx hc0 hc hn.2.2.1 ha.2.2.2.1
  have hP : 0 ≤ W * H := Int.mul_nonneg hn.2.2.1 hn.2.2.2.2.1
  have hu : s.u_plane = s.y_plane + W * H := by rw [hl.1, hn.1, hn.2.1]
  have hv : s.v_plane = s.u_plane + W * H / 4 := by rw [hl.2, hn.1, hn.2.1]
  have hexp : ((y + s.overlay_y) / 2 + r) * (W / 2) =
      (y + s.overlay_y) / 2 * (W / 2) + r * (W / 2) := by ring
  rw [(draw_slice_accepted s m img stride0 stride1 stride2 w h x y W H hn ha).2.1]
  constructor
  · apply foldl_memcpy_value
    · intro c' hc' hcov
      have hcov' := hcov
      obtain ⟨hv0, hv1⟩ := hcov'
      have hin := draw_slice_writes_in_plane s m img stride0 stride1 stride2 w h x y W H hn ha
        c' hc' (s.u_plane + (((y + s.overlay_y) / 2 + r) * (W / 2) + (x + s.overlay_x) / 2 + c)
          - c'.dst) (by omega) (by omega)
      rcases draw_slice_copies_cases s m img stride0 stride1 stride2 w h x y W H hn ha c' hc'
        with ⟨i, _, _, hp, _⟩ | ⟨r', hr0', hr', hp, hd, hsrc, hcn⟩ | ⟨r', _, _, hp, _⟩
      · rcases hin with ⟨_, _, hlt⟩ | ⟨hq, _⟩ | ⟨hq, _⟩
        · omega
        · rw [hp] at hq; cases hq
        · rw [hp] at hq; cases hq
      · have h1 := div_mod_of_row_col (W / 2) r ((x + s.overlay_x) / 2 + c)
          (r * (W / 2) + ((x + s.overlay_x) / 2 + c)) (by omega) (by omega) rfl
        have h2 := div_mod_of_row_col (W / 2) r'
          (s.u_plane + (((y + s.overlay_y) / 2 + r) * (W / 2) + (x + s.overlay_x) / 2 + c)
            - c'.dst + (x + s.overlay_x) / 2)
          (r * (W / 2) + ((x + s.overlay_x) / 2 + c)) (by omega) (by omega) (by omega)
        have hrr : r' = r := by omega
        rw [hp, hsrc, hd, hrr, hev]
        show img.u _ = img.u _
        congr 1
        ring
      · rcases hin with ⟨hq, _⟩ | ⟨hq, _⟩ | ⟨_, hge, _⟩
        · rw [hp] at hq; cases hq
        · rw [hp] at hq; cases hq
        · omega
    · left
      refine ⟨_, hmem.1, ?_⟩
      constructor
      · show s.u_plane + (y + s.overlay_y) * W / 4 + (x + s.overlay_x) / 2 + r * (W / 2) ≤ _
        omega
      · show _ < s.u_plane + (y + s.overlay_y) * W / 4 + (x + s.overlay_x) / 2 + r * (W / 2)
          + (((w / 2).toNat : Nat) : Int)
        rw [Int.toNat_of_nonneg (by omega)]
        omega
  · apply foldl_memcpy_value
    · intro c' hc' hcov
      have hcov' := hcov
      obtain ⟨hv0, hv1⟩ := hcov'
      have hin := draw_slice_writes_in_plane s m img stride0 stride1 stride2 w h x y W H hn ha
        c' hc' (s.v_plane + (((y + s.overlay_y) / 2 + r) * (W / 2) + (x + s.overlay_x) / 2 + c)
          - c'.dst) (by omega) (by omega)
      rcases draw_slice_copies_cases s m img stride0 stride1 stride2 w h x y W H hn ha c' hc'
        with ⟨i, _, _, hp, _⟩ | ⟨r', _, _, hp, _⟩ | ⟨r', hr0', hr', hp, hd, hsrc, hcn⟩
      · rcases hin with ⟨_, _, hlt⟩ | ⟨hq, _⟩ | ⟨hq, _⟩
        · omega
        · rw [hp] at hq; cases hq
        · rw [hp] at hq; cases hq
      · rcases hin with ⟨hq, _⟩ | ⟨_, _, hlt⟩ | ⟨hq, _⟩
        · rw [hp] at hq; cases hq
        · omega
        · rw [hp] at hq; cases hq
      · have h1 := div_mod_of_row_col (W / 2) r ((x + s.overlay_x) / 2 + c)
          (r * (W / 2) + ((x + s.overlay_x) / 2 + c)) (by omega) (by omega) rfl
        have h2 := div_mod_of_row_col (W / 2) r'
          (s.v_plane + (((y + s.overlay_y) / 2 + r) * (W / 2) + (x + s.overlay_x) / 2 + c)
            - c'.dst + (x + s.overlay_x) / 2)
          (r * (W / 2) + ((x + s.overlay_x) / 2 + c)) (by omega) (by omega) (by omega)
        have hrr : r' = r := by omega
        rw [hp, hsrc, hd, hrr, hev]
        show img.v _ = img.v _
        congr 1
        ring
    · left
      refine ⟨_, hmem.2, ?_⟩
      constructor
      · show s.v_plane + (y + s.overlay_y) * W / 4 + (x + s.overlay_x) / 2 + r * (W / 2) ≤ _
        omega
      · show _ < s.v_plane + (y + s.overlay_y) * W / 4 + (x + s.overlay_x) / 2 + r * (W / 2)
          + (((w / 2).toNat : Nat) : Int)
        rw [Int.toNat_of_nonneg (by omega)]
        omega

/-! ## Failure of `config` -/

/-- A failing `config_open` leaves through the error exit with the new descriptor stored in
the state; the only `open` it logged is the one of that descriptor. -/
theorem config_open_failure (env : Env) (s : State) (m : Mem)
    (h : (config_open env s m).ret ≠ 0) :
    ∃ (s' : State) (pre : List Event),
      config_open env s m = config_error s' m pre ∧ s'.overlay_fd = env.fd ∧
      s'.y_plane = s.y_plane ∧ s'.u_plane = s.u_plane ∧ s'.v_plane = s.v_plane ∧
      ∀ e ∈ pre, ∀ dev fd, e = Event.sys_open dev fd → fd = env.fd := by
  unfold config_open at h ⊢
  by_cases h1 : env.r_get_vscreeninfo = 0
  · by_cases h2 : env.r_put_vscreeninfo = 0
    · by_cases h3 : env.r_get_fscreeninfo = 0
      · by_cases h4 : env.mmap_result = MAP_FAILED
        · simp only [h1, h2, h3, h4, ne_eq, not_true_eq_false, if_false, if_true]
          refine ⟨_, _, rfl, rfl, rfl, rfl, rfl, ?_⟩
          intro e he dev fd hfd
          subst hfd
          simp at he
          exact he.2
        · exfalso
          apply h
          simp [h1, h2, h3, h4, config_fill]
      · simp only [h1, h2, h3, ne_eq, not_true_eq_false, not_false_eq_true, if_false, if_true]
        refine ⟨_, _, rfl, rfl, rfl, rfl, rfl, ?_⟩
        intro e he dev fd hfd
        subst hfd
        simp at he
        exact he.2
    · simp only [h1, h2, ne_eq, not_true_eq_false, not_false_eq_true, if_false, if_true]
      refine ⟨_, _, rfl, rfl, rfl, rfl, rfl, ?_⟩
      intro e he dev fd hfd
      subst hfd
      simp at he
      exact he.2
  · simp only [h1, ne_eq, not_false_eq_true, if_true]
    refine ⟨_, _, rfl, rfl, rfl, rfl, rfl, ?_⟩
    intro e he dev fd hfd
    subst hfd
    simp at he
    exact he.2

/-- A failing `config` leaves through the error exit: either before `open("/dev/fb2")`, with
the state it was called in and no `open` logged, or after it, with the new descriptor stored
in the state.  The plane pointers are the ones it was called with. -/
theorem config_failure (K : Consts) (env : Env) (s : State) (m : Mem)
    (src_width src_height dst_width dst_height flags format : Int)
    (h : (config K env s m src_width src_height dst_width dst_height flags format).ret ≠ 0) :
    ∃ (s' : State) (pre : List Event),
      config K env s m src_width src_height dst_width dst_height flags format =
        config_error s' m pre ∧
      s'.y_plane = s.y_plane ∧ s'.u_plane = s.u_plane ∧ s'.v_plane = s.v_plane ∧
      ((∀ e ∈ pre, ∀ dev fd, e ≠ Event.sys_open dev fd) ∨
       (s'.overlay_fd = env.fd ∧ ∀ e ∈ pre, ∀ dev fd, e = Event.sys_open dev fd → fd = env.fd)) := by
  unfold config at h ⊢
  by_cases h0 : (vo_pxa_check_format K format).1 = 0
  · simp only [h0, if_true]
    refine ⟨_, _, rfl, rfl, rfl, rfl, Or.inl ?_⟩
    intro e he dev fd hfd
    subst hfd
    unfold vo_pxa_check_format at he
    split at he <;> simp at he
  by_cases h1 : src_width > u32 s.overlay_width ∨ src_height > u32 s.overlay_height
  · simp only [h0, h1, if_false, if_true]
    exact ⟨_, _, rfl, rfl, rfl, rfl, Or.inl (by simp)⟩
  by_cases h2 : dst_width > u32 s.overlay_width ∨ dst_height > u32 s.overlay_height
  · simp only [h0, h1, h2, if_false, if_true]
    exact ⟨_, _, rfl, rfl, rfl, rfl, Or.inl (by simp)⟩
  by_cases h3 : src_width ≠ dst_width ∨ src_height ≠ dst_height
  · simp only [h0, h1, h2, h3, if_false, if_true]
    exact ⟨_, _, rfl, rfl, rfl, rfl, Or.inl (by simp)⟩
  simp only [if_neg h0, if_neg h1, if_neg h2, if_neg h3] at h ⊢
  obtain ⟨s', pre, he, hfd, hy, hu, hv, hop⟩ := config_open_failure env _ m h
  exact ⟨s', pre, he, hy, hu, hv, Or.inr ⟨hfd, hop⟩⟩

/-- C11: whatever the starting state, a `config` call that returns failure returns -1 with
the mapping handle NULL and the device handle -1, and if it opened the overlay device (the
`open` gave a descriptor other than -1), the last thing it did was to close that descriptor. -/
theorem config_failure_releases (K : Consts) (env : Env) (s : State) (m : Mem)
    (src_width src_height dst_width dst_height flags format : Int)
    (hfail : (config K env s m src_width src_height dst_width dst_height flags format).ret ≠ 0) :
    (config K env s m src_width src_height dst_width dst_height flags format).ret = -1 ∧
    (config K env s m src_width src_height dst_width dst_height flags format).st.overlay_mem
      = 0 ∧
    (config K env s m src_width src_height dst_width dst_height flags format).st.overlay_fd
      = -1 ∧
    ∀ fd : Int, fd ≠ -1 →
      Event.sys_open Dev.fb2 fd ∈
        (config K env s m src_width src_height dst_width dst_height flags format).log →
      (config K env s m src_width src_height dst_width dst_height flags format).log.getLast?
        = some (Event.sys_close fd) := by
  obtain ⟨s', pre, he, _, _, _, hop⟩ :=
    config_failure K env s m src_width src_height dst_width dst_height flags format hfail
  rw [he]
  refine ⟨rfl, rfl, rfl, ?_⟩
  intro fd hfd hmem
  simp only [config_error] at hmem ⊢
  have hpre : Event.sys_open Dev.fb2 fd ∈ pre := by
    by_cases hm : s'.overlay_mem = 0 <;> by_cases hf : s'.overlay_fd = -1 <;>
      simpa [hm, hf] using hmem
  rcases hop with hno | ⟨hsfd, honly⟩
  · exact absurd rfl (hno _ hpre Dev.fb2 fd)
  · have hfe : fd = env.fd := honly _ hpre Dev.fb2 fd rfl
    have hne : s'.overlay_fd ≠ -1 := by rw [hsfd, ← hfe]; exact hfd
    rw [if_pos hne, List.getLast?_append, hsfd, ← hfe]
    rfl

/-- Witness of `config_failure_releases`: on a 320x240 main plane, `config(320,240,320,240)`
whose `mmap` fails returns -1 with both handles reset, and its last call is `close(4)`. -/
theorem config_failure_releases_witness :
    (config playerConsts mmapFailEnv qvga zeroMem 320 240 320 240 0 0x32315659).ret = -1 ∧
    (config playerConsts mmapFailEnv qvga zeroMem 320 240 320 240 0 0x32315659).st.overlay_mem
      = 0 ∧
    (config playerConsts mmapFailEnv qvga zeroMem 320 240 320 240 0 0x32315659).st.overlay_fd
      = -1 ∧
    (config playerConsts mmapFailEnv qvga zeroMem 320 240 320 240 0 0x32315659).log.getLast?
      = some (Event.sys_close 4) :=
  have h := config_failure_releases playerConsts mmapFailEnv qvga zeroMem 320 240 320 240 0
    0x32315659 (by decide)
  ⟨h.1, h.2.1, h.2.2.1, h.2.2.2 4 (by decide) (by decide)⟩

/-- C12, failing input: from the unconfigured state after `preinit` on a 320x240 main plane,
`config(320,240,320,240)` whose `mmap` returns `MAP_FAILED` stores that value in `overlay_mem`,
which is not NULL, so the error exit calls `munmap(MAP_FAILED, 115200)` although no mapping
was established. -/
theorem config_mmap_failure_unmaps :
    qvga.overlay_mem = 0 ∧ qvga.overlay_fd = -1 ∧
    (config playerConsts mmapFailEnv qvga zeroMem 320 240 320 240 0 0x32315659).ret = -1 ∧
    (config playerConsts mmapFailEnv qvga zeroMem 320 240 320 240 0 0x32315659).log =
      [Event.sys_open Dev.fb2 4,
       Event.get_vscreeninfo 4 0,
       Event.put_vscreeninfo 4
         { xres := 320, yres := 240, xres_virtual := 320, yres_virtual := 240,
           bits_per_pixel := 16, activate := 0, nonstd := 4194304 } 0,
       Event.get_fscreeninfo 4 0,
       Event.sys_mmap 115200 4 MAP_FAILED,
       Event.msg Diag.mmap_failed,
       Event.sys_munmap MAP_FAILED 115200,
       Event.sys_close 4] ∧
    live_maps [Event.sys_open Dev.fb2 4, Event.get_vscreeninfo 4 0,
       Event.get_fscreeninfo 4 0, Event.sys_mmap 115200 4 MAP_FAILED] = [] := by
  decide

/-! ## Plane pointers and the mapping handle -/

theorem draw_slice_st (s : State) (m : Mem) (img : Src) (stride0 stride1 stride2 : Int)
    (w h x y : Int) : (draw_slice s m img stride0 stride1 stride2 w h x y).st = s := by
  unfold draw_slice
  simp only
  split <;> rfl

theorem mappingInv_of_null (s : State) (n : Int) (h : s.overlay_mem = 0) : MappingInv s n := by
  unfold MappingInv MAP_FAILED
  rw [h]
  exact ⟨by decide, fun hne => absurd rfl hne⟩

/-- What a successful `config` stores in the plane pointers: the mapping base, and the bases
`overlay_width * overlay_height` and a quarter of it further. -/
theorem config_success_planes (K : Consts) (env : Env) (s : State) (m : Mem)
    (src_width src_height dst_width dst_height flags format : Int)
    (hok : (config K env s m src_width src_height dst_width dst_height flags format).ret = 0) :
    (config K env s m src_width src_height dst_width dst_height flags format).st.overlay_mem
      = env.mmap_result ∧
    env.mmap_result ≠ MAP_FAILED ∧
    (config K env s m src_width src_height dst_width dst_height flags format).st.y_plane
      = env.mmap_result ∧
    (config K env s m src_width src_height dst_width dst_height flags format).st.u_plane
      = env.mmap_result + wrap32 (s.overlay_width * s.overlay_height) ∧
    (config K env s m src_width src_height dst_width dst_height flags format).st.v_plane
      = env.mmap_result + wrap32 (s.overlay_width * s.overlay_height)
        + Int.tdiv (wrap32 (s.overlay_width * s.overlay_height)) 4 := by
  have hs := config_success K env s m src_width src_height dst_width dst_height flags format hok
  rw [hs.2.2.2.2.2.2.2.2.1]
  exact ⟨rfl, hs.2.2.2.2.2.2.2.1, rfl, rfl, rfl⟩

/-- Every state reached with plane size `n` satisfies `MappingInv` for that `n`. -/
theorem reachableWith_mappingInv (K : Consts) (s : State) (n : Int)
    (hr : ReachableWith K s n) : MappingInv s n := by
  induction hr with
  | start => exact mappingInv_of_null _ _ rfl
  | by_preinit p s n _ ih =>
    unfold preinit
    split
    · exact ih
    · exact ih
  | by_config env m src_width src_height dst_width dst_height flags format s n _ ih =>
    by_cases hok :
        (config K env s m src_width src_height dst_width dst_height flags format).ret = 0
    · have hp := config_success_planes K env s m src_width src_height dst_width dst_height
        flags format hok
      rw [if_pos hok]
      refine ⟨by rw [hp.1]; exact hp.2.1, fun _ => ⟨?_, ?_, ?_⟩⟩
      · rw [hp.2.2.1, hp.1]
      · rw [hp.2.2.2.1, hp.2.2.1]
      · rw [hp.2.2.2.2, hp.2.2.2.1]
    · obtain ⟨s', pre, he, _⟩ :=
        config_failure K env s m src_width src_height dst_width dst_height flags format hok
      rw [if_neg hok, he]
      exact mappingInv_of_null _ _ rfl
  | by_draw_slice m img stride0 stride1 stride2 w h x y s n _ ih =>
    rw [draw_slice_st]
    exact ih
  | by_uninit s n _ ih => exact mappingInv_of_null _ _ rfl

/-- Every reachable state is reached with some plane size. -/
theorem reachable_reachableWith (K : Consts) (s : State) (hr : Reachable K s) :
    ∃ n : Int, ReachableWith K s n := by
  induction hr with
  | start => exact ⟨0, ReachableWith.start⟩
  | by_preinit p s _ ih =>
    obtain ⟨n, hn⟩ := ih
    exact ⟨n, ReachableWith.by_preinit p s n hn⟩
  | by_config env m src_width src_height dst_width dst_height flags format s _ ih =>
    obtain ⟨n, hn⟩ := ih
    exact ⟨_, ReachableWith.by_config env m src_width src_height dst_width dst_height flags
      format s n hn⟩
  | by_draw_slice m img stride0 stride1 stride2 w h x y s _ ih =>
    obtain ⟨n, hn⟩ := ih
    exact ⟨n, ReachableWith.by_draw_slice m img stride0 stride1 stride2 w h x y s n hn⟩
  | by_uninit s _ ih =>
    obtain ⟨n, hn⟩ := ih
    exact ⟨n, ReachableWith.by_uninit s n hn⟩

/-- C13, counterexample: after `preinit` on a 320x240 main plane, a successful
`config(320,240,320,240)` and `uninit`, the mapping handle is NULL while the three plane
pointers still hold the addresses inside the released mapping. -/
theorem plane_pointers_outlive_mapping :
    Reachable playerConsts (uninit fullSurface.st).1 ∧
    (uninit fullSurface.st).1.overlay_mem = 0 ∧
    (uninit fullSurface.st).1.y_plane = 0x40000000 ∧
    (uninit fullSurface.st).1.u_plane = 0x40000000 + 76800 ∧
    (uninit fullSurface.st).1.v_plane = 0x40000000 + 76800 + 19200 :=
  ⟨Reachable.by_uninit _
      (Reachable.by_config okEnv zeroMem 320 240 320 240 0 0x32315659 _
        (Reachable.by_preinit { fb := 3, r := 0, xres := 320, yres := 240 } _ Reachable.start)),
    by decide, by decide, by decide, by decide⟩

/-- C13, amended: in every state reachable by `preinit`, `config`, `draw_slice` and `uninit`
calls, the mapping handle is never `MAP_FAILED`, and whenever it is not NULL the plane pointers
are the ones derived from it: `y_plane = overlay_mem`, `u_plane = y_plane + n`,
`v_plane = u_plane + n/4`, where `n` is `overlay_width * overlay_height` (in the `int`
arithmetic of the code) at the latest successful `config` call.  A successful `config` sets
them so from the result of `mmap`; `uninit` and the failure path of `config` reset the mapping
handle to NULL and leave the three plane pointers as they were. -/
theorem mapping_implies_plane_pointers (K : Consts) (s : State) (hr : Reachable K s) :
    (∃ n : Int, ReachableWith K s n) ∧
    (∀ n : Int, ReachableWith K s n → MappingInv s n) ∧
    (∀ (env : Env) (m : Mem) (src_width src_height dst_width dst_height flags format : Int),
      (config K env s m src_width src_height dst_width dst_height flags format).ret = 0 →
      (config K env s m src_width src_height dst_width dst_height flags format).st.overlay_mem
        = env.mmap_result ∧
      env.mmap_result ≠ MAP_FAILED ∧
      (config K env s m src_width src_height dst_width dst_height flags format).st.y_plane
        = env.mmap_result ∧
      (config K env s m src_width src_height dst_width dst_height flags format).st.u_plane
        = env.mmap_result + wrap32 (s.overlay_width * s.overlay_height) ∧
      (config K env s m src_width src_height dst_width dst_height flags format).st.v_plane
        = env.mmap_result + wrap32 (s.overlay_width * s.overlay_height)
          + Int.tdiv (wrap32 (s.overlay_width * s.overlay_height)) 4) ∧
    ((uninit s).1.overlay_mem = 0 ∧ (uninit s).1.y_plane = s.y_plane ∧
      (uninit s).1.u_plane = s.u_plane ∧ (uninit s).1.v_plane = s.v_plane) ∧
    (∀ (env : Env) (m : Mem) (src_width src_height dst_width dst_height flags format : Int),
      (config K env s m src_width src_height dst_width dst_height flags format).ret ≠ 0 →
      (config K env s m src_width src_height dst_width dst_height flags format).st.overlay_mem
        = 0 ∧
      (config K env s m src_width src_height dst_width dst_height flags format).st.y_plane
        = s.y_plane ∧
      (config K env s m src_width src_height dst_width dst_height flags format).st.u_plane
        = s.u_plane ∧
      (config K env s m src_width src_height dst_width dst_height flags format).st.v_plane
        = s.v_plane) := by
  refine ⟨reachable_reachableWith K s hr, fun n hn => reachableWith_mappingInv K s n hn,
    fun env m src_width src_height dst_width dst_height flags format hok =>
      config_success_planes K env s m src_width src_height dst_width dst_height flags format hok,
    ⟨rfl, rfl, rfl, rfl⟩, ?_⟩
  intro env m src_width src_height dst_width dst_height flags format hfail
  obtain ⟨s', pre, he, hy, hu, hv, _⟩ :=
    config_failure K env s m src_width src_height dst_width dst_height flags format hfail
  rw [he]
  exact ⟨rfl, hy, hu, hv⟩

/-- Witness of `mapping_implies_plane_pointers`: the state after `preinit` on a 320x240 main
plane and a successful `config(320,240,320,240)` is reached with plane size
`320 * 240 = 76800`; its mapping handle is not NULL, its luma pointer is the mapping base, and
the U and V pointers lie 76800 and 76800 + 19200 bytes further. -/
theorem mapping_implies_plane_pointers_witness :
    fullSurface.st.overlay_mem ≠ 0 ∧ MappingInv fullSurface.st 76800 ∧
    fullSurface.st.y_plane = fullSurface.st.overlay_mem ∧
    fullSurface.st.u_plane = fullSurface.st.y_plane + 76800 ∧
    fullSurface.st.v_plane = fullSurface.st.u_plane + Int.tdiv 76800 4 :=
  have h := (mapping_implies_plane_pointers playerConsts fullSurface.st
    (Reachable.by_config okEnv zeroMem 320 240 320 240 0 0x32315659 _
      (Reachable.by_preinit { fb := 3, r := 0, xres := 320, yres := 240 } _
        Reachable.start))).2.1 76800
    (ReachableWith.by_config okEnv zeroMem 320 240 320 240 0 0x32315659 _ 0
      (ReachableWith.by_preinit { fb := 3, r := 0, xres := 320, yres := 240 } _ 0
        ReachableWith.start))
  ⟨by decide, h, (h.2 (by decide)).1, (h.2 (by decide)).2.1, (h.2 (by decide)).2.2⟩

/-! ## Reconfiguration -/

/-- C14, failing input: after `preinit` on a 320x240 main plane, a successful
`config(320,240,320,240)` (descriptor 4, mapping at `0x40000000`) followed by a second
successful `config(320,240,320,240)` (descriptor 5, mapping at `0x40100000`): the second call
makes no `munmap` and no `close`, so two overlay descriptors are open and two mappings are
established at the end. -/
theorem config_twice_leaks :
    fullSurface.ret = 0 ∧
    (config playerConsts okEnv2 fullSurface.st fullSurface.mem 320 240 320 240 0 0x32315659).ret
      = 0 ∧
    (config playerConsts okEnv2 fullSurface.st fullSurface.mem 320 240 320 240 0 0x32315659).log =
      [Event.sys_open Dev.fb2 5,
       Event.get_vscreeninfo 5 0,
       Event.put_vscreeninfo 5
         { xres := 320, yres := 240, xres_virtual := 320, yres_virtual := 240,
           bits_per_pixel := 16, activate := 0, nonstd := 4194304 } 0,
       Event.get_fscreeninfo 5 0,
       Event.sys_mmap 115200 5 0x40100000] ∧
    live_fds (fullSurface.log ++
      (config playerConsts okEnv2 fullSurface.st fullSurface.mem 320 240 320 240 0
        0x32315659).log) = [4, 5] ∧
    live_maps (fullSurface.log ++
      (config playerConsts okEnv2 fullSurface.st fullSurface.mem 320 240 320 240 0
        0x32315659).log) = [0x40000000, 0x40100000] := by
  decide

/-! ## Slice copy: status code, chroma start, rejection, negative positions -/

/-- C15: `draw_slice` returns 0 for every state, memory, source, stride, size and position,
on the path that rejects (diagnostic logged, no copy, memory as before) as on the path that
copies; the two never differ in the status. -/
theorem draw_slice_returns_zero (s : State) (m : Mem) (img : Src)
    (stride0 stride1 stride2 w h x y : Int) :
    (draw_slice s m img stride0 stride1 stride2 w h x y).ret = 0 ∧
    (((draw_slice s m img stride0 stride1 stride2 w h x y).log = [Event.msg Diag.too_big_image] ∧
      (draw_slice s m img stride0 stride1 stride2 w h x y).copies = [] ∧
      (draw_slice s m img stride0 stride1 stride2 w h x y).mem = m) ∨
     ((draw_slice s m img stride0 stride1 stride2 w h x y).log = [] ∧
      (draw_slice s m img stride0 stride1 stride2 w h x y).mem =
        (draw_slice s m img stride0 stride1 stride2 w h x y).copies.foldl (fast_memcpy img) m)) := by
  unfold draw_slice
  simp only
  split
  · exact ⟨rfl, Or.inl ⟨rfl, rfl, rfl⟩⟩
  · exact ⟨rfl, Or.inr ⟨rfl, rfl⟩⟩

/-- C18: there are a native size, a configured surface and a slice with negative `y` and
`w, h > 0` that passes the bounds check of `draw_slice` and whose first luma destination
offset `(y + overlay_y) * W + (x + overlay_x)` is negative: on native 320x240 configured to
320x240, the slice `x = 0, y = -1, w = 16, h = 16` is accepted, its first copy starts 320
bytes before the luma base, and the byte there is overwritten with the first source byte. -/
theorem draw_slice_no_lower_bound :
    ∃ (s : State) (m : Mem) (w h x y : Int),
      s = fullSurface.st ∧ fullSurface.ret = 0 ∧ s.overlay_width = 320 ∧ s.overlay_height = 240 ∧
      y < 0 ∧ 0 < w ∧ 0 < h ∧
      x + s.overlay_x + w ≤ s.overlay_width ∧ y + s.overlay_y + h ≤ s.overlay_height ∧
      (y + s.overlay_y) * s.overlay_width + (x + s.overlay_x) < 0 ∧
      (draw_slice s m rampImg 16 8 8 w h x y).log = [] ∧
      (draw_slice s m rampImg 16 8 8 w h x y).copies.head? =
        some { plane := Plane.Y, dst := s.y_plane - 320, src := 0, n := 16 } ∧
      m (s.y_plane - 320) = 0 ∧
      (draw_slice s m rampImg 16 8 8 w h x y).mem (s.y_plane - 320) = 200 :=
  ⟨fullSurface.st, fullSurface.mem, 16, 16, 0, -1, by decide⟩

/-! ## Slice copy: overflow of the sums in the bounds check -/

/-- C4, failing input: on native 320x240 configured to 320x240 (offset `(0, 0)`), the slice
`x = 1, y = 0, w = 2147483647, h = 2` has `x, y, w, h >= 0`; the sum `w + x` of the bounds
check overflows `int` and wraps to `-2147483648`, so the check passes, and the first luma copy
writes 2147483647 bytes from `y_plane + 1`: its last byte has luma offset 2147483647, far
above `320 * 240`, and the byte at mapping offset 115200, the first one past the end of the V
plane, is overwritten. -/
theorem draw_slice_overflow_overrun :
    fullSurface.ret = 0 ∧ NativeSize fullSurface.st 320 240 ∧
    fullSurface.st.overlay_x = 0 ∧ fullSurface.st.overlay_y = 0 ∧
    wrap32 (2147483647 + wrap32 (1 + fullSurface.st.overlay_x)) = -2147483648 ∧
    (draw_slice fullSurface.st fullSurface.mem rampImg 32 16 16 2147483647 2 1 0).log = [] ∧
    (draw_slice fullSurface.st fullSurface.mem rampImg 32 16 16 2147483647 2 1 0).copies =
      [{ plane := Plane.Y, dst := fullSurface.st.y_plane + 1, src := 0, n := 2147483647 },
       { plane := Plane.Y, dst := fullSurface.st.y_plane + 321, src := 32, n := 2147483647 },
       { plane := Plane.U, dst := fullSurface.st.u_plane, src := 0, n := 1073741823 },
       { plane := Plane.V, dst := fullSurface.st.v_plane, src := 0, n := 1073741823 }] ∧
    ¬ ((fullSurface.st.y_plane + 1) + 2147483646 - fullSurface.st.y_plane < 320 * 240) ∧
    fullSurface.st.v_plane + 320 * 240 / 4 = fullSurface.st.y_plane + 115200 ∧
    fullSurface.mem (fullSurface.st.y_plane + 115200) = 0 ∧
    (draw_slice fullSurface.st fullSurface.mem rampImg 32 16 16 2147483647 2 1 0).mem
      (fullSurface.st.y_plane + 115200) = 190 := by
  decide

/-- C9, failing input: on native 320x240 configured to 320x240 (offset `(0, 0)`), the slice
`x = 1, y = 0, w = 2147483647, h = 2` passes the bounds check because `w + x` overflows `int`;
the luma byte `k = 1600`, at row 5 and column 0, lies outside the rectangle
`[0, 2) x [1, 2147483648)` of the slice and changes from the black level 16 to 211. -/
theorem draw_slice_overflow_frame :
    fullSurface.ret = 0 ∧ PlaneLayout fullSurface.st ∧
    fullSurface.st.overlay_x = 0 ∧ fullSurface.st.overlay_y = 0 ∧
    (draw_slice fullSurface.st fullSurface.mem rampImg 32 16 16 2147483647 2 1 0).log = [] ∧
    (1600 : Int) / 320 = 5 ∧ (1600 : Int) % 320 = 0 ∧
    ¬ (0 + fullSurface.st.overlay_y ≤ (1600 : Int) / 320 ∧
       (1600 : Int) / 320 < 0 + fullSurface.st.overlay_y + 2 ∧
       1 + fullSurface.st.overlay_x ≤ (1600 : Int) % 320 ∧
       (1600 : Int) % 320 < 1 + fullSurface.st.overlay_x + 2147483647) ∧
    fullSurface.mem (fullSurface.st.y_plane + 1600) = 16 ∧
    (draw_slice fullSurface.st fullSurface.mem rampImg 32 16 16 2147483647 2 1 0).mem
      (fullSurface.st.y_plane + 1600) = 211 := by
  decide

end VoPxa
